import Mathlib

/-!
Verification development for the pg_check PostgreSQL extension.

The C sources are shallowly embedded: machine integers become `Nat`/`Int`
(all the page-header fields are unsigned 16-bit quantities, line-pointer
fields are unsigned bitfields, error counters are unsigned 32-bit and
never wrap in practice), raw page memory becomes a byte-fetch function
`Int → Nat` (each fetch is reduced mod 256, modelling `uint8` reads), and
the structured regions the C code accesses through typed pointers
(the line-pointer array `pd_linp`, the b-tree special area `BTPageOpaque`,
the metapage `BTMetaPageData`) are carried as structured fields of the
page model.  Loops that accumulate an error counter become `List.foldl`
over `List.range`; `continue` is "add 0", `break` is a carried flag.
-/

namespace PgCheck

/-! ## Constants from the PostgreSQL headers used by the sources -/

/-- Page size in bytes (`BLCKSZ`, default build). -/
def BLCKSZ : Nat := 8192

/-- `offsetof(PageHeaderData, pd_linp)`: 24 bytes of fixed page header. -/
def SizeOfPageHeaderData : Nat := 24

/-- `PD_VALID_FLAG_BITS` from bufpage.h. -/
def PD_VALID_FLAG_BITS : Nat := 0x0007

def LP_UNUSED : Nat := 0
def LP_NORMAL : Nat := 1
def LP_REDIRECT : Nat := 2
def LP_DEAD : Nat := 3

/-- `HEAP_HASNULL` bit of `t_infomask`. -/
def HEAP_HASNULL : Nat := 0x0001

/-- `HEAP_NATTS_MASK` applied to `t_infomask2`. -/
def HEAP_NATTS_MASK : Nat := 0x07FF

/-- `MaxHeapTuplesPerPage` for an 8 KiB page. -/
def MaxHeapTuplesPerPage : Nat := (BLCKSZ - 24) / 28

/-! ## Data model: line pointers, page header, pages, relations -/

/-- `ItemIdData`: one line pointer (`lp_off:15, lp_flags:2, lp_len:15`). -/
structure ItemIdData where
  lp_off : Nat
  lp_flags : Nat
  lp_len : Nat
  deriving Repr, DecidableEq

instance : Inhabited ItemIdData := ⟨⟨0, 0, 0⟩⟩

/-- `PageHeaderData` with the line-pointer array carried structurally. -/
structure PageHeaderData where
  pd_flags : Nat
  pd_lower : Nat
  pd_upper : Nat
  pd_special : Nat
  pd_pagesize_version : Nat
  pd_linp : List ItemIdData
  deriving Repr

/-- B-tree special area (`BTPageOpaqueData`); `btpo_level` is the
`btpo.level` union member. -/
structure BTPageOpaqueData where
  btpo_prev : Nat
  btpo_next : Nat
  btpo_level : Nat
  btpo_flags : Nat
  deriving Repr, DecidableEq

instance : Inhabited BTPageOpaqueData := ⟨⟨0, 0, 0, 0⟩⟩

/-- B-tree metapage contents (`BTMetaPageData`), the fields the checker reads. -/
structure BTMetaPageData where
  btm_magic : Nat
  btm_version : Nat
  deriving Repr, DecidableEq

/-- A raw page: the header (with its line pointers), the raw bytes used by
the tuple-level checks, and the structured views of the special space and
of the metapage contents that the C code obtains by pointer casts into the
same buffer. -/
structure Page where
  header : PageHeaderData
  bytes : Int → Nat
  specialArea : BTPageOpaqueData
  meta : BTMetaPageData

/-- Fetch one octet of the raw page (`uint8` read). -/
def byteAt (page : Page) (off : Int) : Nat := page.bytes off % 256

/-- One `pg_attribute` row, the fields the walkers read. -/
structure AttrData where
  attlen : Int
  attbyval : Bool
  attalign : Char
  deriving Repr, DecidableEq

instance : Inhabited AttrData := ⟨⟨0, false, 'i'⟩⟩

/-- The slice of `Relation` the checkers use: `rel->rd_att->natts` and
`rel->rd_att->attrs`. -/
structure RelationData where
  natts : Nat
  attrs : List AttrData
  deriving Repr, DecidableEq

/-- `pd_linp[i]` access. -/
def linpAt (header : PageHeaderData) (i : Nat) : ItemIdData :=
  header.pd_linp.getD i default

/-! ## Page-level macros from bufpage.h -/

/-- `PageGetPageSize`: `pd_pagesize_version & 0xFF00`. -/
def PageGetPageSize (header : PageHeaderData) : Nat :=
  Nat.land header.pd_pagesize_version 0xFF00

/-- `PageGetPageLayoutVersion`: `pd_pagesize_version & 0x00FF`. -/
def PageGetPageLayoutVersion (header : PageHeaderData) : Nat :=
  Nat.land header.pd_pagesize_version 0x00FF

/-- `PageIsNew`: `pd_upper == 0`. -/
def PageIsNew (header : PageHeaderData) : Prop := header.pd_upper = 0

instance (header : PageHeaderData) : Decidable (PageIsNew header) := by
  unfold PageIsNew; infer_instance

/-- `PageGetMaxOffsetNumber`. -/
def PageGetMaxOffsetNumber (header : PageHeaderData) : Nat :=
  if header.pd_lower ≤ SizeOfPageHeaderData then 0
  else (header.pd_lower - SizeOfPageHeaderData) / 4

/-! ## `check_page_header` (src/src/common.c) -/

/-- Checks of `check_page_header` that run after the layout-version
dispatch: the new-page early return, the three offset range checks, the
two ordering checks and the flag check.  (The `pd_tli` check is compiled
out for `PG_VERSION_NUM ≥ 90300`.) -/
def check_page_header_tail (header : PageHeaderData) (nerrs : Nat) : Nat :=
  if PageIsNew header then
    nerrs
  else
    let nerrs := if header.pd_lower < SizeOfPageHeaderData ∨
                    header.pd_lower > BLCKSZ then nerrs + 1 else nerrs
    let nerrs := if header.pd_upper < SizeOfPageHeaderData ∨
                    header.pd_upper > BLCKSZ then nerrs + 1 else nerrs
    let nerrs := if header.pd_special < SizeOfPageHeaderData ∨
                    header.pd_special > BLCKSZ then nerrs + 1 else nerrs
    let nerrs := if header.pd_lower > header.pd_upper then nerrs + 1 else nerrs
    let nerrs := if header.pd_upper > header.pd_special then nerrs + 1 else nerrs
    let nerrs := if Nat.land header.pd_flags PD_VALID_FLAG_BITS ≠ header.pd_flags
                 then nerrs + 1 else nerrs
    nerrs

/-- `check_page_header(header, block)`.  The layout version is a `Nat`
here, so the C condition `(version < 0) || (version > 4)` reduces to
`version > 4`; that branch increments and falls through, while
`version ≠ 4` (with `version ≤ 4`) returns immediately. -/
def check_page_header (header : PageHeaderData) (block : Nat) : Nat :=
  let nerrs : Nat := 0
  let nerrs := if PageGetPageSize header ≠ BLCKSZ then nerrs + 1 else nerrs
  if PageGetPageLayoutVersion header > 4 then
    check_page_header_tail header (nerrs + 1)
  else if PageGetPageLayoutVersion header ≠ 4 then
    nerrs + 1
  else
    check_page_header_tail header nerrs

example :
    check_page_header ⟨0, 24, 8176, 8192, 8192 + 4, []⟩ 0 = 0 := by decide

example :
    check_page_header ⟨0, 24, 8176, 8100, 8192 + 4, []⟩ 0 = 1 := by decide

/-! ## Varlena and alignment macros (postgres.h, tupmacs.h, little endian) -/

/-- `VARATT_IS_4B_C`: first byte tagged `10` in its two low bits. -/
def VARATT_IS_4B_C (b0 : Nat) : Prop := b0 % 4 = 2

instance (b0 : Nat) : Decidable (VARATT_IS_4B_C b0) := by
  unfold VARATT_IS_4B_C; infer_instance

/-- `VARATT_IS_1B`: low bit of the first byte set. -/
def VARATT_IS_1B (b0 : Nat) : Prop := b0 % 2 = 1

instance (b0 : Nat) : Decidable (VARATT_IS_1B b0) := by
  unfold VARATT_IS_1B; infer_instance

/-- `VARATT_IS_1B_E`: the first byte is exactly `0x01`. -/
def VARATT_IS_1B_E (b0 : Nat) : Prop := b0 = 1

instance (b0 : Nat) : Decidable (VARATT_IS_1B_E b0) := by
  unfold VARATT_IS_1B_E; infer_instance

/-- Little-endian `uint32` read at `off`. -/
def le32At (page : Page) (off : Int) : Nat :=
  byteAt page off + 256 * byteAt page (off + 1) +
    65536 * byteAt page (off + 2) + 16777216 * byteAt page (off + 3)

/-- Little-endian `int32` read at `off` (two's complement). -/
def int32At (page : Page) (off : Int) : Int :=
  let u := le32At page off
  if u < 2 ^ 31 then (u : Int) else (u : Int) - 2 ^ 32

/-- `VARSIZE_4B`: `(va_header >> 2) & 0x3FFFFFFF`. -/
def VARSIZE_4B (page : Page) (off : Int) : Nat :=
  (le32At page off / 4) % 0x40000000

/-- `VARSIZE_1B`: `(header >> 1) & 0x7F`. -/
def VARSIZE_1B (b0 : Nat) : Nat := (b0 / 2) % 128

/-- `VARTAG_SIZE` of the tag byte of a TOAST pointer; `varatt_external`
(tag 18) is 16 bytes, in-memory pointers (tags 1,2,3) are 8 bytes.  The
trap for unknown tags is modelled as 0. -/
def VARTAG_SIZE (tag : Nat) : Nat :=
  if tag = 18 then 16 else if tag = 1 ∨ tag = 2 ∨ tag = 3 then 8 else 0

/-- `VARSIZE_EXTERNAL`: `VARHDRSZ_EXTERNAL + VARTAG_SIZE(tag byte)`. -/
def VARSIZE_EXTERNAL (page : Page) (off : Int) : Nat :=
  2 + VARTAG_SIZE (byteAt page (off + 1))

/-- `VARSIZE_ANY(PTR)`. -/
def VARSIZE_ANY (page : Page) (off : Int) : Nat :=
  if VARATT_IS_1B_E (byteAt page off) then VARSIZE_EXTERNAL page off
  else if VARATT_IS_1B (byteAt page off) then VARSIZE_1B (byteAt page off)
  else VARSIZE_4B page off

/-- `VARATT_IS_COMPRESSED(PTR)` = `VARATT_IS_4B_C(PTR)`. -/
def VARATT_IS_COMPRESSED (page : Page) (off : Int) : Prop :=
  VARATT_IS_4B_C (byteAt page off)

instance (page : Page) (off : Int) : Decidable (VARATT_IS_COMPRESSED page off) := by
  unfold VARATT_IS_COMPRESSED; infer_instance

/-- `VARRAWSIZE_4B_C`: the `va_rawsize` field (`int32` right after the
4-byte header word). -/
def VARRAWSIZE_4B_C (page : Page) (off : Int) : Int :=
  int32At page (off + 4)

/-- `TYPEALIGN(ALIGNVAL, LEN)`: round `len` up to a multiple of `alignval`
(the C macro works on non-negative offsets in all reachable states). -/
def TYPEALIGN (alignval len : Int) : Int :=
  ((len + alignval - 1) / alignval) * alignval

/-- `MAXALIGN`: 8-byte alignment. -/
def MAXALIGN (len : Int) : Int := TYPEALIGN 8 len

/-- `att_align_nominal(cur_offset, attalign)`. -/
def att_align_nominal (cur_offset : Int) (attalign : Char) : Int :=
  if attalign = 'i' then TYPEALIGN 4 cur_offset
  else if attalign = 'c' then cur_offset
  else if attalign = 'd' then TYPEALIGN 8 cur_offset
  else TYPEALIGN 2 cur_offset

/-- `att_align_pointer(cur_offset, attalign, attlen, attptr)`: a varlena
whose first byte is not a pad byte starts unaligned. -/
def att_align_pointer (cur_offset : Int) (attalign : Char) (attlen : Int)
    (firstByte : Nat) : Int :=
  if attlen = -1 ∧ firstByte ≠ 0 then cur_offset
  else att_align_nominal cur_offset attalign

/-- `att_isnull(ATT, BITS)`: true when bit `att` of the null bitmap is 0. -/
def att_isnull (att : Nat) (bits : Nat → Nat) : Prop :=
  Nat.land (bits (att / 8)) (Nat.shiftLeft 1 (att % 8)) = 0

instance (att : Nat) (bits : Nat → Nat) : Decidable (att_isnull att bits) := by
  unfold att_isnull; infer_instance

/-- `strnlen` over the page bytes: length of the NUL-free prefix starting
at `off`, at most `fuel`. -/
def strnlenAt (page : Page) (off : Int) : Nat → Nat
  | 0 => 0
  | fuel + 1 => if byteAt page off = 0 then 0 else strnlenAt page (off + 1) fuel + 1

/-- `strnlen(buffer+off, maxlen)` with a C `size_t` count: a negative
`maxlen` expression (converted to a huge unsigned in C, scanning
out-of-bounds memory) is modelled as a zero-length scan. -/
def strnlenC (page : Page) (off : Int) (maxlen : Int) : Nat :=
  strnlenAt page off maxlen.toNat

/-! ## Heap tuple header accessors (htup_details.h layout) -/

/-- `t_hoff` (`uint8` at offset 22 of the tuple header). -/
def t_hoffAt (page : Page) (lp_off : Nat) : Nat := byteAt page ((lp_off : Int) + 22)

/-- `t_infomask` (`uint16` at offset 20). -/
def t_infomaskAt (page : Page) (lp_off : Nat) : Nat :=
  byteAt page ((lp_off : Int) + 20) + 256 * byteAt page ((lp_off : Int) + 21)

/-- `t_infomask2` (`uint16` at offset 18). -/
def t_infomask2At (page : Page) (lp_off : Nat) : Nat :=
  byteAt page ((lp_off : Int) + 18) + 256 * byteAt page ((lp_off : Int) + 19)

/-- `t_bits` (null bitmap starting at offset 23), as a byte-indexed map. -/
def t_bitsAt (page : Page) (lp_off : Nat) : Nat → Nat :=
  fun k => byteAt page ((lp_off : Int) + 23 + (k : Int))

/-- `HeapTupleHeaderGetNatts`: `t_infomask2 & HEAP_NATTS_MASK`. -/
def HeapTupleHeaderGetNatts (infomask2 : Nat) : Nat :=
  Nat.land infomask2 HEAP_NATTS_MASK

/-! ## `check_heap_tuple_attributes` (src/src/heap.c) -/

/-- State of the attribute loop of `check_heap_tuple_attributes`.
`len` is declared inside the loop body in C and is read uninitialized by
the cstring branch; it is modelled as the value surviving from the
previous iteration (0 before the first). -/
structure AttrWalkState where
  off : Int
  len : Int
  nerrs : Nat
  has_nulls : Bool
  broken : Bool
  deriving Repr, DecidableEq

/-- Tail of one attribute iteration: the overflow check against the tuple
end, then the cursor advance (`break` leaves the cursor in place). -/
def check_attr_finish (lp : ItemIdData) (off len : Int) (nerrs : Nat)
    (has_nulls : Bool) : AttrWalkState :=
  let endoff : Int := (lp.lp_off : Int) + (lp.lp_len : Int)
  if off + len > endoff then ⟨off, len, nerrs + 1, has_nulls, true⟩
  else ⟨off + len, len, nerrs, has_nulls, false⟩

/-- One iteration (attribute `j`) of the loop in
`check_heap_tuple_attributes`. -/
def check_attr_step (rel : RelationData) (page : Page) (lp : ItemIdData)
    (infomask : Nat) (j : Nat) (s : AttrWalkState) : AttrWalkState :=
  if s.broken then s
  else
    let attr := rel.attrs.getD j default
    let is_varlena := ¬attr.attbyval ∧ attr.attlen = -1
    let is_varwidth := ¬attr.attbyval ∧ attr.attlen < 0
    if Nat.land infomask HEAP_HASNULL ≠ 0 ∧ att_isnull j (t_bitsAt page lp.lp_off) then
      { s with has_nulls := true }
    else
      let off := att_align_pointer s.off attr.attalign attr.attlen (byteAt page s.off)
      if is_varlena then
        let len : Int := (VARSIZE_ANY page off : Int)
        if len < 0 then ⟨off, len, s.nerrs + 1, s.has_nulls, true⟩
        else
          let nerrs := if VARATT_IS_COMPRESSED page off ∧
                          (VARRAWSIZE_4B_C page off < 0 ∨
                           VARRAWSIZE_4B_C page off > 1024 * 1024)
                       then s.nerrs + 1 else s.nerrs
          check_attr_finish lp off len nerrs s.has_nulls
      else if is_varwidth then
        let len : Int :=
          (strnlenC page off ((lp.lp_off : Int) + s.len + (lp.lp_len : Int) - off) : Int) + 1
        check_attr_finish lp off len s.nerrs s.has_nulls
      else
        check_attr_finish lp off attr.attlen s.nerrs s.has_nulls

/-- `check_heap_tuple_attributes(rel, header, block, i, buffer)`. -/
def check_heap_tuple_attributes (rel : RelationData) (page : Page)
    (block i : Nat) : Nat :=
  let lp := linpAt page.header i
  let off : Int := (lp.lp_off : Int) + (t_hoffAt page lp.lp_off : Int)
  let tuplenatts := HeapTupleHeaderGetNatts (t_infomask2At page lp.lp_off)
  if tuplenatts > rel.natts then 1
  else
    let infomask := t_infomaskAt page lp.lp_off
    let s := (List.range tuplenatts).foldl
      (fun s j => check_attr_step rel page lp infomask j s) ⟨off, 0, 0, false, false⟩
    let nerrs := s.nerrs
    let nerrs := if Nat.land infomask HEAP_HASNULL ≠ 0 ∧ s.has_nulls = false
                 then nerrs + 1 else nerrs
    let endoff : Int := (lp.lp_off : Int) + (lp.lp_len : Int)
    if s.off > endoff then nerrs + 1 else nerrs

/-! ## `check_heap_tuple` and `check_heap_tuples` (src/src/heap.c) -/

/-- Contribution of prior line pointer `j` to the intersection loop of
`check_heap_tuple` for an item with storage interval `[a, b)`:
`LP_UNUSED`, `LP_REDIRECT` and storage-less `LP_DEAD` items are skipped,
any of the four interleavings of `[a,b]` and `[c,d]` is one error. -/
def heap_overlap_term (header : PageHeaderData) (a b j : Nat) : Nat :=
  let lp2 := linpAt header j
  if lp2.lp_flags = LP_UNUSED ∨ lp2.lp_flags = LP_REDIRECT ∨
     (lp2.lp_flags = LP_DEAD ∧ lp2.lp_len = 0) then 0
  else
    let c := lp2.lp_off
    let d := lp2.lp_off + lp2.lp_len
    if (a < c ∧ c < b) ∨ (a < d ∧ d < b) ∨ (c < a ∧ a < d) ∨ (c < b ∧ b < d)
    then 1 else 0

/-- Body of `check_heap_tuple` for an item that is `LP_NORMAL` or
`LP_DEAD` with storage: zero-length/zero-offset checks, bounds against
`pd_upper`/`pd_special`, the intersection loop over prior items, then the
attribute checks. -/
def check_heap_tuple_storage (rel : RelationData) (page : Page)
    (block i : Nat) : Nat :=
  let header := page.header
  let lp := linpAt header i
  let nerrs : Nat := 0
  let nerrs := if lp.lp_len = 0 then nerrs + 1 else nerrs
  let nerrs := if lp.lp_off = 0 then nerrs + 1 else nerrs
  let nerrs := if lp.lp_off < header.pd_upper then nerrs + 1 else nerrs
  let nerrs := if lp.lp_off + lp.lp_len > header.pd_special then nerrs + 1 else nerrs
  let a := lp.lp_off
  let b := lp.lp_off + lp.lp_len
  let nerrs := (List.range i).foldl (fun n j => n + heap_overlap_term header a b j) nerrs
  nerrs + check_heap_tuple_attributes rel page block i

/-- `check_heap_tuple(rel, header, block, i, buffer)`: dispatch on
`lp_flags` (`LP_REDIRECT` and `LP_UNUSED` require `lp_len == 0`,
storage-less `LP_DEAD` returns early, unknown flags are one error). -/
def check_heap_tuple (rel : RelationData) (page : Page) (block i : Nat) : Nat :=
  let lp := linpAt page.header i
  if lp.lp_flags = LP_REDIRECT then
    if lp.lp_len ≠ 0 then 1 else 0
  else if lp.lp_flags = LP_UNUSED then
    if lp.lp_len ≠ 0 then 1 else 0
  else if lp.lp_flags = LP_DEAD ∧ lp.lp_len = 0 then 0
  else if lp.lp_flags = LP_DEAD ∨ lp.lp_flags = LP_NORMAL then
    check_heap_tuple_storage rel page block i
  else 1

/-- `check_heap_tuples(rel, header, buffer, block)`. -/
def check_heap_tuples (rel : RelationData) (page : Page) (block : Nat) : Nat :=
  let ntuples := PageGetMaxOffsetNumber page.header
  (List.range ntuples).foldl (fun nerrs i => nerrs + check_heap_tuple rel page block i) 0

/-! ## Item bitmap (src/src/item-bitmap.c)

The C code mutates a heap-allocated `item_bitmap`; the model threads the
structure explicitly, and functions that both mutate and return a value
return a pair.  `assert` calls compile to nothing in production builds
and are not modelled. -/

def PALLOC_CHUNK : Nat := 1024

/-- `item_bitmap`: `pages` holds the running sums of items per page,
`data` the bitmap bytes. -/
structure ItemBitmap where
  npages : Nat
  nbytes : Nat
  maxBytes : Nat
  pages : List Nat
  data : List Nat
  deriving Repr, DecidableEq

/-- `bitmap_init(npages)`.  The `pages` array is allocated without
initialization in C and is only ever read at indexes already written by
`bitmap_add_page`; it is modelled as zeroed. -/
def bitmap_init (npages : Nat) : ItemBitmap :=
  { npages := npages
    nbytes := 0
    maxBytes := PALLOC_CHUNK * (npages / PALLOC_CHUNK / 8 + 1)
    pages := List.replicate npages 0
    data := List.replicate (PALLOC_CHUNK * (npages / PALLOC_CHUNK / 8 + 1)) 0 }

/-- `bitmap_copy(src)`: same dimensions and page counts, zeroed data. -/
def bitmap_copy (src : ItemBitmap) : ItemBitmap :=
  { npages := src.npages
    nbytes := src.nbytes
    maxBytes := src.maxBytes
    pages := src.pages
    data := List.replicate src.maxBytes 0 }

/-- `bitmap_reset(bitmap)`: zero the data, keep the page counts. -/
def bitmap_reset (bm : ItemBitmap) : ItemBitmap :=
  { bm with data := List.replicate bm.maxBytes 0 }

/-- `bitmap_add_page(bitmap, page, items)`: record the running item count
for `page` and extend the data area by one chunk when needed. -/
def bitmap_add_page (bm : ItemBitmap) (page items : Nat) : ItemBitmap :=
  let v := if page = 0 then items else items + bm.pages.getD (page - 1) 0
  let pages := bm.pages.set page v
  let nbytes := (v + 7) / 8
  if nbytes > bm.maxBytes then
    { npages := bm.npages
      nbytes := nbytes
      maxBytes := bm.maxBytes + PALLOC_CHUNK
      pages := pages
      data := bm.data ++ List.replicate PALLOC_CHUNK 0 }
  else
    { bm with pages := pages, nbytes := nbytes }

/-- `GetBitmapIndex(bmap, page, item)` (item-bitmap.h); `item` is a C
`int` and may be negative in the HOT second pass. -/
def GetBitmapIndex (bm : ItemBitmap) (page : Nat) (item : Int) : Int :=
  if page = 0 then item else (bm.pages.getD (page - 1) 0 : Int) + item

/-- The `1 << bitIdx` mask; a negative shift count is undefined behaviour
in C and is modelled as an all-zero mask. -/
def bitMaskOf (bitIdx : Int) : Nat :=
  if bitIdx < 0 then 0 else Nat.shiftLeft 1 bitIdx.toNat

/-- `bitmap_set_item(bitmap, page, item, state)`: returns the C `bool`
result together with the updated bitmap.  `/` and `%` on the (possibly
negative) index use C truncated division; a byte access at a negative
index (undefined behaviour in C) is modelled as byte 0. -/
def bitmap_set_item (bm : ItemBitmap) (page : Nat) (item : Int)
    (state : Bool) : Bool × ItemBitmap :=
  let byteIdx := Int.tdiv (GetBitmapIndex bm page item) 8
  let bitIdx := Int.tmod (GetBitmapIndex bm page item) 8
  if page ≥ bm.npages then (false, bm)
  else if byteIdx > (bm.nbytes : Int) then (false, bm)
  else if item ≥ (bm.pages.getD page 0 : Int) then (false, bm)
  else
    let b := bm.data.getD byteIdx.toNat 0
    let b' := if state then Nat.lor b (bitMaskOf bitIdx)
              else Nat.land b (Nat.xor 255 (bitMaskOf bitIdx))
    (true, { bm with data := bm.data.set byteIdx.toNat b' })

/-- `bitmap_get_item(bitmap, page, item)`.  The C return expression is
`data[byteIdx] && (1 << bitIdx)` — a logical AND, so the result is true
whenever the whole byte is non-zero (and the mask is non-zero). -/
def bitmap_get_item (bm : ItemBitmap) (page : Nat) (item : Int) : Bool :=
  let byteIdx := Int.tdiv (GetBitmapIndex bm page item) 8
  let bitIdx := Int.tmod (GetBitmapIndex bm page item) 8
  if page ≥ bm.npages then false
  else if byteIdx > (bm.nbytes : Int) then false
  else if item ≥ (bm.pages.getD page 0 : Int) then false
  else if bm.data.getD byteIdx.toNat 0 ≠ 0 ∧ bitMaskOf bitIdx ≠ 0 then true
  else false

/-- `bitmap_count(bitmap)`: number of bits set in the first `nbytes`
bytes. -/
def bitmap_count (bm : ItemBitmap) : Nat :=
  (List.range bm.nbytes).foldl (fun items i =>
    (List.range 8).foldl (fun items j =>
      if Nat.land (bm.data.getD i 0) (Nat.shiftLeft 1 j) ≠ 0 then items + 1
      else items) items) 0

/-- `bitmap_compare(bitmap_a, bitmap_b)`: number of differing bits; on a
page-count mismatch the code warns and returns `MAX` of the totals. -/
def bitmap_compare (bma bmb : ItemBitmap) : Nat :=
  if bma.npages ≠ bmb.npages then
    max (bma.pages.getD (bma.npages - 1) 0) (bmb.pages.getD (bmb.npages - 1) 0)
  else
    (List.range bma.nbytes).foldl (fun ndiff i =>
      let diff := Nat.xor (bma.data.getD i 0) (bmb.data.getD i 0)
      if diff ≠ 0 then
        (List.range 8).foldl (fun nd j =>
          if Nat.land diff (Nat.shiftLeft 1 j) ≠ 0 then nd + 1 else nd) ndiff
      else ndiff) 0

/-- `bitmap_add_heap_items(bitmap, header, raw_page, page)`: register the
page, set a bit for every `LP_NORMAL`/`LP_REDIRECT` item, then the second
pass clears the redirect targets (`lp_off - 1`, a C `int` that may be
negative). -/
def bitmap_add_heap_items (bm : ItemBitmap) (page : Page) (pageno : Nat) :
    ItemBitmap × Nat :=
  let ntuples := PageGetMaxOffsetNumber page.header
  let bm := bitmap_add_page bm pageno ntuples
  let st := (List.range ntuples).foldl (fun (st : ItemBitmap × Nat) item =>
    let lp := linpAt page.header item
    if lp.lp_flags = LP_NORMAL ∨ lp.lp_flags = LP_REDIRECT then
      let r := bitmap_set_item st.1 pageno (item : Int) true
      (r.2, if r.1 then st.2 else st.2 + 1)
    else st) (bm, 0)
  (List.range ntuples).foldl (fun (st : ItemBitmap × Nat) item =>
    let lp := linpAt page.header item
    if lp.lp_flags = LP_REDIRECT then
      if bitmap_get_item st.1 pageno ((lp.lp_off : Int) - 1) then
        let r := bitmap_set_item st.1 pageno ((lp.lp_off : Int) - 1) false
        (r.2, if r.1 then st.2 else st.2 + 1)
      else st
    else st) st

/-- `bitmap_print(bitmap, format)`: the body only formats the bitmap for
the log; the modelled aspect is that line 283 reads `bitmap->nbytes`, so
a NULL argument is a NULL-pointer dereference (`none`). -/
def bitmap_print (bitmap : Option ItemBitmap) : Option Unit :=
  match bitmap with
  | none => none
  | some _ => some ()

/-! ## Index tuple accessors (itup.h) and b-tree macros (nbtree.h) -/

def BTREE_METAPAGE : Nat := 0
def BTREE_MAGIC : Nat := 0x053162
def BTREE_VERSION : Nat := 2
def BTP_LEAF : Nat := 1
def BTP_DELETED : Nat := 4

/-- `sizeof(BTPageOpaqueData)` = 16. -/
def sizeofBTPageOpaqueData : Nat := 16

def P_ISLEAF (o : BTPageOpaqueData) : Prop := Nat.land o.btpo_flags BTP_LEAF ≠ 0

instance (o : BTPageOpaqueData) : Decidable (P_ISLEAF o) := by
  unfold P_ISLEAF; infer_instance

def P_ISDELETED (o : BTPageOpaqueData) : Prop := Nat.land o.btpo_flags BTP_DELETED ≠ 0

instance (o : BTPageOpaqueData) : Decidable (P_ISDELETED o) := by
  unfold P_ISDELETED; infer_instance

def P_RIGHTMOST (o : BTPageOpaqueData) : Prop := o.btpo_next = 0

instance (o : BTPageOpaqueData) : Decidable (P_RIGHTMOST o) := by
  unfold P_RIGHTMOST; infer_instance

def P_LEFTMOST (o : BTPageOpaqueData) : Prop := o.btpo_prev = 0

instance (o : BTPageOpaqueData) : Decidable (P_LEFTMOST o) := by
  unfold P_LEFTMOST; infer_instance

/-- `P_FIRSTDATAKEY(opaque)`: `P_HIKEY` (1) on the rightmost page,
`P_FIRSTKEY` (2) otherwise. -/
def P_FIRSTDATAKEY (o : BTPageOpaqueData) : Nat := if P_RIGHTMOST o then 1 else 2

/-- `t_info` of the `IndexTuple` at `lp_off` (`uint16` at offset 6, after
the 6-byte `t_tid`). -/
def indexTupleInfoAt (page : Page) (lp_off : Nat) : Nat :=
  byteAt page ((lp_off : Int) + 6) + 256 * byteAt page ((lp_off : Int) + 7)

/-- `IndexTupleSize`: `t_info & INDEX_SIZE_MASK`. -/
def IndexTupleSize (t_info : Nat) : Nat := Nat.land t_info 0x1FFF

/-- `IndexTupleHasNulls`: `t_info & INDEX_NULL_MASK`. -/
def IndexTupleHasNulls (t_info : Nat) : Prop := Nat.land t_info 0x8000 ≠ 0

instance (t_info : Nat) : Decidable (IndexTupleHasNulls t_info) := by
  unfold IndexTupleHasNulls; infer_instance

/-- `IndexInfoFindDataOffset(t_info)`: `MAXALIGN(sizeof(IndexTupleData))`
= 8 without a null bitmap, `MAXALIGN(8 + sizeof(IndexAttributeBitMapData))`
= 16 with one. -/
def IndexInfoFindDataOffset (t_info : Nat) : Nat :=
  if Nat.land t_info 0x8000 = 0 then 8 else 16

/-- `BlockIdGetBlockNumber` of the `t_tid` of the index tuple at `lp_off`
(`bi_hi` and `bi_lo` are the first two little-endian `uint16` fields). -/
def indexTupleTidBlock (page : Page) (lp_off : Nat) : Nat :=
  Nat.lor
    (Nat.shiftLeft (byteAt page ((lp_off : Int)) + 256 * byteAt page ((lp_off : Int) + 1)) 16)
    (byteAt page ((lp_off : Int) + 2) + 256 * byteAt page ((lp_off : Int) + 3))

/-- `ip_posid` of the `t_tid` (`uint16` at offset 4). -/
def indexTupleTidPosid (page : Page) (lp_off : Nat) : Nat :=
  byteAt page ((lp_off : Int) + 4) + 256 * byteAt page ((lp_off : Int) + 5)

/-! ## B-tree page checks (src/src/index.c) -/

/-- Modelled from the spec: `bitmap_get` is called by `btree_add_tuples`
(src/src/index.c:577) but defined nowhere in the repository sources; per
spec §4.5 the bitmap is a dense bitset indexed by
`bit_index = page × MaxHeapTuplesPerPage + offset`. -/
def bitmap_get (bm : ItemBitmap) (page : Nat) (item : Int) : Bool :=
  let idx : Int := (page * MaxHeapTuplesPerPage : Nat) + item
  if idx < 0 then false
  else if Nat.land (bm.data.getD (idx.toNat / 8) 0) (Nat.shiftLeft 1 (idx.toNat % 8)) ≠ 0
  then true else false

/-- Modelled from the spec: `bitmap_set` is called by `btree_add_tuples`
(src/src/index.c:580) but defined nowhere in the repository sources; per
spec §4.5 it sets the bit `page × MaxHeapTuplesPerPage + offset` of the
dense bitset. -/
def bitmap_set (bm : ItemBitmap) (page : Nat) (item : Int) : ItemBitmap :=
  let idx : Int := (page * MaxHeapTuplesPerPage : Nat) + item
  if idx < 0 then bm
  else
    let b := bm.data.getD (idx.toNat / 8) 0
    { bm with data := bm.data.set (idx.toNat / 8) (Nat.lor b (Nat.shiftLeft 1 (idx.toNat % 8))) }

/-- Tail of one iteration of the attribute loop of
`btree_check_attributes`: the overflow check and the cursor advance are
both gated on `dlen > 0`. -/
def btree_attr_finish (linp : ItemIdData) (dlen off len : Int) (nerrs : Nat)
    (has_nulls : Bool) : AttrWalkState :=
  if dlen > 0 ∧ off + len > (linp.lp_off : Int) + (linp.lp_len : Int) then
    ⟨off, len, nerrs + 1, has_nulls, true⟩
  else
    ⟨off + (if dlen > 0 then len else 0), len, nerrs, has_nulls, false⟩

/-- One iteration (attribute `j`) of the loop in
`btree_check_attributes`; same shape as the heap walker, with the
index-tuple null bitmap and the `dlen` gating. -/
def btree_attr_step (rel : RelationData) (page : Page) (linp : ItemIdData)
    (t_info : Nat) (dlen : Int) (j : Nat) (s : AttrWalkState) : AttrWalkState :=
  if s.broken then s
  else
    let attr := rel.attrs.getD j default
    let is_varlena := ¬attr.attbyval ∧ attr.attlen = -1
    let is_varwidth := ¬attr.attbyval ∧ attr.attlen < 0
    let bits := fun (k : Nat) => byteAt page ((linp.lp_off : Int) + 8 + (k : Int))
    if IndexTupleHasNulls t_info ∧ att_isnull j bits then
      { s with has_nulls := true }
    else
      let off := att_align_pointer s.off attr.attalign attr.attlen (byteAt page s.off)
      if is_varlena then
        let len : Int := (VARSIZE_ANY page off : Int)
        if len < 0 then ⟨off, len, s.nerrs + 1, s.has_nulls, true⟩
        else
          let nerrs := if VARATT_IS_COMPRESSED page off ∧
                          (VARRAWSIZE_4B_C page off < 0 ∨
                           VARRAWSIZE_4B_C page off > 1024 * 1024)
                       then s.nerrs + 1 else s.nerrs
          btree_attr_finish linp dlen off len nerrs s.has_nulls
      else if is_varwidth then
        let len : Int :=
          (strnlenC page off ((linp.lp_off : Int) + s.len + (linp.lp_len : Int) - off) : Int) + 1
        btree_attr_finish linp dlen off len s.nerrs s.has_nulls
      else
        btree_attr_finish linp dlen off attr.attlen s.nerrs s.has_nulls

/-- `btree_check_attributes(rel, header, block, offnum, raw_page, dlen)`. -/
def btree_check_attributes (rel : RelationData) (page : Page)
    (block offnum : Nat) (dlen : Int) : Nat :=
  let linp := linpAt page.header (offnum - 1)
  let t_info := indexTupleInfoAt page linp.lp_off
  let off0 : Int := (linp.lp_off : Int) + (IndexInfoFindDataOffset t_info : Int)
  if ¬P_ISLEAF page.specialArea ∧ offnum = P_FIRSTDATAKEY page.specialArea ∧ dlen = 0
  then 0
  else
    let s := (List.range rel.natts).foldl
      (fun s j => btree_attr_step rel page linp t_info dlen j s) ⟨off0, 0, 0, false, false⟩
    let nerrs := s.nerrs
    let nerrs := if IndexTupleHasNulls t_info ∧ s.has_nulls = false
                 then nerrs + 1 else nerrs
    if MAXALIGN s.off > (linp.lp_off : Int) + (linp.lp_len : Int) then nerrs + 1
    else nerrs

/-- Contribution of prior line pointer `j` to the intersection loop of
`btree_check_tuple`: `LP_UNUSED` is skipped, any other non-`LP_NORMAL`
flag gets a warning but no error count, intersection is one error. -/
def btree_overlap_term (header : PageHeaderData) (a b j : Nat) : Nat :=
  let lp2 := linpAt header j
  if lp2.lp_flags = LP_UNUSED then 0
  else if lp2.lp_flags ≠ LP_NORMAL then 0
  else
    let c := lp2.lp_off
    let d := lp2.lp_off + lp2.lp_len
    if (a < c ∧ c < b) ∨ (a < d ∧ d < b) ∨ (c < a ∧ a < d) ∨ (c < b ∧ b < d)
    then 1 else 0

/-- `btree_check_tuple(rel, header, block, i, raw_page)`. -/
def btree_check_tuple (rel : RelationData) (page : Page) (block i : Nat) : Nat :=
  let lp := linpAt page.header i
  if lp.lp_flags = LP_UNUSED then 0
  else if lp.lp_flags ≠ LP_NORMAL then 1
  else
    let a := lp.lp_off
    let b := lp.lp_off + lp.lp_len
    let nerrs := (List.range i).foldl
      (fun n j => n + btree_overlap_term page.header a b j) 0
    let t_info := indexTupleInfoAt page lp.lp_off
    let dlen : Int := (IndexTupleSize t_info : Int) - (IndexInfoFindDataOffset t_info : Int)
    nerrs + btree_check_attributes rel page block (i + 1) dlen

/-- `btree_check_tuples(rel, header, block, raw_page)`. -/
def btree_check_tuples (rel : RelationData) (page : Page) (block : Nat) : Nat :=
  let ntuples := PageGetMaxOffsetNumber page.header
  (List.range ntuples).foldl (fun nerrs i => nerrs + btree_check_tuple rel page block i) 0

/-- `btree_add_tuples(rel, header, block, raw_page, bitmap)`: add the
`t_tid` of every `LP_NORMAL` item (skipping the high key on non-rightmost
pages) to the bitmap; a doubly-set bit is an error. -/
def btree_add_tuples (rel : RelationData) (page : Page) (block : Nat)
    (bm : ItemBitmap) : ItemBitmap × Nat :=
  let ntuples := PageGetMaxOffsetNumber page.header
  let start := if P_RIGHTMOST page.specialArea then 0 else 1
  ((List.range ntuples).drop start).foldl (fun (st : ItemBitmap × Nat) item =>
    let lp := linpAt page.header item
    if lp.lp_flags ≠ LP_NORMAL then st
    else
      let tidBlock := indexTupleTidBlock page lp.lp_off
      let tidOffset : Int := (indexTupleTidPosid page lp.lp_off : Int) - 1
      if bitmap_get st.1 tidBlock tidOffset then (st.1, st.2 + 1)
      else (bitmap_set st.1 tidBlock tidOffset, st.2)) (bm, 0)

/-- The leaf/level coupling block of `btree_check_page`
(src/src/index.c:183-205): on a non-deleted page a leaf must have level 0
and a non-leaf a non-zero level. -/
def btree_leaf_level_errs (o : BTPageOpaqueData) : Nat :=
  if ¬P_ISDELETED o then
    if P_ISLEAF o then
      if o.btpo_level ≠ 0 then 1 else 0
    else
      if o.btpo_level = 0 then 1 else 0
  else 0

/-- `btree_check_page(rel, header, block, raw_page, bitmap)`. -/
def btree_check_page (rel : RelationData) (page : Page) (block : Nat)
    (bm : Option ItemBitmap) : Nat :=
  let nerrs := check_page_header page.header block
  if block = BTREE_METAPAGE then
    let mpdata := page.meta
    let nerrs := if mpdata.btm_magic ≠ BTREE_MAGIC then nerrs + 1 else nerrs
    let nerrs := if mpdata.btm_version ≠ BTREE_VERSION then nerrs + 1 else nerrs
    nerrs
  else
    let nerrs := if page.header.pd_special > BLCKSZ - sizeofBTPageOpaqueData
                 then nerrs + 1 else nerrs
    let nerrs := nerrs + btree_leaf_level_errs page.specialArea
    let nerrs := nerrs + btree_check_tuples rel page block
    match bm with
    | some b =>
        if P_ISLEAF page.specialArea then
          nerrs + (btree_add_tuples rel page block b).2
        else nerrs
    | none => nerrs

/-- `generic_check_page(rel, header, block, raw_page, bitmap)`. -/
def generic_check_page (rel : RelationData) (page : Page) (block : Nat)
    (bm : Option ItemBitmap) : Nat :=
  check_page_header page.header block

/-- One entry of the `methods` registry (`struct index_check_methods`). -/
structure IndexCheckMethod where
  oid : Nat
  check_page : Option (RelationData → Page → Nat → Option ItemBitmap → Nat)
  crosscheck : Bool

/-- The `methods` registry: b-tree (OID 403), then the `InvalidOid`
sentinel with a NULL callback. -/
def methods : List IndexCheckMethod :=
  [⟨403, some btree_check_page, true⟩, ⟨0, none, false⟩]

def methodsAt (i : Nat) : IndexCheckMethod := methods.getD i ⟨0, none, false⟩

/-- The `while` loop of `lookup_check_method(oid, crosscheck)`, with
explicit fuel: `none` means the loop is still running after `fuel`
iterations.  The loop body returns on a match but never increments `i`,
exactly as in the source. -/
def lookup_check_method_loop (oid i : Nat) :
    Nat → Option ((RelationData → Page → Nat → Option ItemBitmap → Nat) × Bool)
  | 0 => none
  | fuel + 1 =>
    if (methodsAt i).oid ≠ 0 then
      if (methodsAt i).oid = oid then
        some ((methodsAt i).check_page.getD generic_check_page, (methodsAt i).crosscheck)
      else
        lookup_check_method_loop oid i fuel
    else
      some (generic_check_page, false)

/-- `lookup_check_method(oid, crosscheck)`: run the loop from `i = 0`. -/
def lookup_check_method (oid fuel : Nat) :
    Option ((RelationData → Page → Nat → Option ItemBitmap → Nat) × Bool) :=
  lookup_check_method_loop oid 0 fuel

/-! ## `check_index_page` family (src/index.c, called from src/src/pg_check.c) -/

/-- `check_index_page(rel, header, buffer, block)`. -/
def check_index_page (rel : RelationData) (page : Page) (block : Nat) : Nat :=
  let nerrs := check_page_header page.header block
  if block = BTREE_METAPAGE then
    let mpdata := page.meta
    let nerrs := if mpdata.btm_magic ≠ BTREE_MAGIC then nerrs + 1 else nerrs
    if mpdata.btm_version ≠ BTREE_VERSION then nerrs + 1 else nerrs
  else
    let o := page.specialArea
    let nerrs := if page.header.pd_special > BLCKSZ - sizeofBTPageOpaqueData
                 then nerrs + 1 else nerrs
    if Nat.land o.btpo_flags BTP_LEAF ≠ 0 ∧ o.btpo_level ≠ 0 then nerrs + 1
    else if Nat.land o.btpo_flags BTP_LEAF = 0 ∧ o.btpo_level = 0 then nerrs + 1
    else nerrs

/-- One iteration of the attribute loop of `check_index_tuple_attributes`
(src/index.c); unlike the heap walker, `len` is initialized to
`attr.attlen` at the top of each iteration. -/
def check_index_attr_step (rel : RelationData) (page : Page) (linp : ItemIdData)
    (t_info : Nat) (j : Nat) (s : AttrWalkState) : AttrWalkState :=
  if s.broken then s
  else
    let attr := rel.attrs.getD j default
    let len0 : Int := attr.attlen
    let is_varlena := ¬attr.attbyval ∧ len0 = -1
    let is_varwidth := ¬attr.attbyval ∧ len0 < 0
    let bits := fun (k : Nat) => byteAt page ((linp.lp_off : Int) + 8 + (k : Int))
    if IndexTupleHasNulls t_info ∧ att_isnull j bits then s
    else
      let off := att_align_pointer s.off attr.attalign attr.attlen (byteAt page s.off)
      if is_varlena then
        let len : Int := (VARSIZE_ANY page off : Int)
        if len < 0 then ⟨off, len, s.nerrs + 1, s.has_nulls, true⟩
        else
          let nerrs := if VARATT_IS_COMPRESSED page off ∧
                          (VARRAWSIZE_4B_C page off < 0 ∨
                           VARRAWSIZE_4B_C page off > 1024 * 1024)
                       then s.nerrs + 1 else s.nerrs
          check_attr_finish linp off len nerrs s.has_nulls
      else if is_varwidth then
        let len : Int :=
          (strnlenC page off ((linp.lp_off : Int) + len0 + (linp.lp_len : Int) - off) : Int) + 1
        check_attr_finish linp off len s.nerrs s.has_nulls
      else
        check_attr_finish linp off len0 s.nerrs s.has_nulls

/-- `check_index_tuple_attributes(rel, header, block, i, buffer)`
(src/index.c). -/
def check_index_tuple_attributes (rel : RelationData) (page : Page)
    (block i : Nat) : Nat :=
  let linp := linpAt page.header i
  let t_info := indexTupleInfoAt page linp.lp_off
  let off0 : Int := (linp.lp_off : Int) + (IndexInfoFindDataOffset t_info : Int)
  if P_LEFTMOST page.specialArea ∧ ¬P_ISLEAF page.specialArea ∧ i = 0 then 0
  else
    let s := (List.range rel.natts).foldl
      (fun s j => check_index_attr_step rel page linp t_info j s) ⟨off0, 0, 0, false, false⟩
    if MAXALIGN s.off ≠ (linp.lp_off : Int) + (linp.lp_len : Int) then s.nerrs + 1
    else s.nerrs

/-- `check_index_tuple(rel, header, block, i, buffer)` (src/index.c).
The intersection loop's skip condition tests `pd_linp[i]` (not
`pd_linp[j]`), exactly as in the source. -/
def check_index_tuple (rel : RelationData) (page : Page) (block i : Nat) : Nat :=
  let lp := linpAt page.header i
  let a := lp.lp_off
  let b := lp.lp_off + lp.lp_len
  let nerrs := (List.range i).foldl (fun n j =>
    if ¬(lp.lp_flags = LP_NORMAL) then n
    else
      let lp2 := linpAt page.header j
      let c := lp2.lp_off
      let d := lp2.lp_off + lp2.lp_len
      if (a < c ∧ c < b) ∨ (a < d ∧ d < b) ∨ (c < a ∧ a < d) ∨ (c < b ∧ b < d)
      then n + 1 else n) 0
  if lp.lp_flags = LP_NORMAL then nerrs + check_index_tuple_attributes rel page block i
  else nerrs

/-- `check_index_tuples(rel, header, buffer, block)` (src/index.c). -/
def check_index_tuples (rel : RelationData) (page : Page) (block : Nat) : Nat :=
  let ntuples := PageGetMaxOffsetNumber page.header
  (List.range ntuples).foldl (fun nerrs i => nerrs + check_index_tuple rel page block i) 0

/-! ## Relation driver (src/src/pg_check.c) -/

/-- `bitmap_add_index_items(bitmap, header, raw_page, page)`
(src/src/item-bitmap.c): set the bit of every item's `t_tid`. -/
def bitmap_add_index_items (bm : ItemBitmap) (page : Page) (pageno : Nat) :
    ItemBitmap × Nat :=
  let ntuples := PageGetMaxOffsetNumber page.header
  (List.range ntuples).foldl (fun (st : ItemBitmap × Nat) item =>
    let lp := linpAt page.header item
    let r := bitmap_set_item st.1 (indexTupleTidBlock page lp.lp_off)
               ((indexTupleTidPosid page lp.lp_off : Int) - 1) true
    (r.2, if r.1 then st.2 else st.2 + 1)) (bm, 0)

/-- One index relation as the driver sees it: its access method OID, its
tuple descriptor and its pages.  The superuser and `relkind` guards raise
`ERROR` through the host and are collaborator preconditions. -/
structure IndexRel where
  relam : Nat
  rel : RelationData
  relpages : List Page

/-- `check_index_oid(indexOid, bitmap)` (src/src/pg_check.c:322-409):
skip non-b-tree access methods, then per page run `check_index_page`,
and for `blkno > 0` also `check_index_tuples` and — when a bitmap is
given and the page is a leaf — `bitmap_add_index_items`. -/
def check_index_oid (idx : IndexRel) (bitmap : Option ItemBitmap) :
    Nat × Option ItemBitmap :=
  if idx.relam ≠ 403 then (0, bitmap)
  else
    idx.relpages.enum.foldl (fun (st : Nat × Option ItemBitmap) pr =>
      let nerrs := st.1 + check_index_page idx.rel pr.2 pr.1
      if pr.1 > 0 then
        let nerrs := nerrs + check_index_tuples idx.rel pr.2 pr.1
        match st.2 with
        | some bm =>
            if P_ISLEAF pr.2.specialArea then
              let r := bitmap_add_index_items bm pr.2 pr.1
              (nerrs + r.2, some r.1)
            else (nerrs, some bm)
        | none => (nerrs, none)
      else (nerrs, st.2)) (0, bitmap)

/-- `check_table(relid, checkIndexes, crossCheckIndexes, 0, 0, false)`
(src/src/pg_check.c:162-312), the `pg_check_table` entry point (no block
range).  The result is `none` when the run dereferences a NULL pointer:
after the heap loop, `if (pgcheck_debug) bitmap_print(bitmap_heap, ...)`
is executed regardless of whether `bitmap_heap` was ever allocated.  The
superuser and `relkind` guards raise `ERROR` through the host and are
collaborator preconditions. -/
def check_table (rel : RelationData) (relpages : List Page)
    (indexes : List IndexRel) (checkIndexes crossCheckIndexes pgcheck_debug : Bool) :
    Option Nat :=
  let bitmap_build := crossCheckIndexes
  let bitmap_heap : Option ItemBitmap :=
    if crossCheckIndexes then some (bitmap_init relpages.length) else none
  let st := relpages.enum.foldl (fun (st : Nat × Option ItemBitmap) pr =>
    let nerrs := st.1 + check_page_header pr.2.header pr.1
    let nerrs := nerrs + check_heap_tuples rel pr.2 pr.1
    if bitmap_build then
      match st.2 with
      | some bm => (nerrs, some (bitmap_add_heap_items bm pr.2 pr.1).1)
      | none => (nerrs, none)
    else (nerrs, st.2)) (0, bitmap_heap)
  match (if pgcheck_debug then bitmap_print st.2 else some ()) with
  | none => none
  | some _ =>
    if checkIndexes then
      let bitmap_idx : Option ItemBitmap := st.2.map bitmap_copy
      let r := indexes.foldl (fun (ac : Nat × Option ItemBitmap) idx =>
        let bmIdx := if bitmap_build then ac.2.map bitmap_reset else ac.2
        let ri := check_index_oid idx bmIdx
        match st.2, ri.2 with
        | some bmHeap, some bmIdx2 =>
            (ac.1 + ri.1 + bitmap_compare bmHeap bmIdx2, some bmIdx2)
        | _, _ => (ac.1 + ri.1, ri.2)) (st.1, bitmap_idx)
      some r.1
    else some st.1

/-- The bitmap part of the heap pass of `check_table`
(src/src/pg_check.c:220-244): `bitmap_add_heap_items` for pages
`idx, idx+1, ...` in order (the driver discards its error count). -/
def heap_pass_from (bm : ItemBitmap) (idx : Nat) : List Page → ItemBitmap
  | [] => bm
  | pg :: rest => heap_pass_from (bitmap_add_heap_items bm pg idx).1 (idx + 1) rest

/-- The full heap pass: `bitmap_init` sized by the relation's block
count, then `bitmap_add_heap_items` for every page `0 .. npages-1`. -/
def run_heap_pass (relpages : List Page) : ItemBitmap :=
  heap_pass_from (bitmap_init relpages.length) 0 relpages

/-! ## Shared helper lemmas -/

/-- A left fold that only accumulates `+ f k` equals the sum of the `f`
values added to the seed. -/
theorem foldl_add_eq (f : Nat → Nat) :
    ∀ (l : List Nat) (a : Nat), l.foldl (fun a k => a + f k) a = a + (l.map f).sum
  | [], a => by simp
  | x :: xs, a => by
      simp [List.foldl_cons, foldl_add_eq f xs, Nat.add_assoc]

/-- If a pure error-count fold over `0 .. n-1` is zero, every summand is
zero. -/
theorem foldl_add_zero (f : Nat → Nat) (n : Nat)
    (h : (List.range n).foldl (fun a k => a + f k) 0 = 0) :
    ∀ k, k < n → f k = 0 := by
  intro k hk
  rw [foldl_add_eq] at h
  simp only [Nat.zero_add] at h
  exact (List.sum_eq_zero_iff).1 h (f k) (List.mem_map_of_mem f (List.mem_range.2 hk))

/-- A fold whose step keeps the second component fixed returns the seed's
second component. -/
theorem foldl_preserve_snd {α β γ : Type _} (g : (β × γ) → α → β) :
    ∀ (l : List α) (s : β × γ),
      (l.foldl (fun st x => (g st x, st.2)) s).2 = s.2
  | [], _ => rfl
  | _ :: xs, s => by
      simp only [List.foldl_cons]
      exact foldl_preserve_snd g xs _

/-! ## Claim C1 -/

/-- C1: for a page header with layout version 4 and `pd_upper ≠ 0`,
`check_page_header` returns 0 iff the encoded page size is `BLCKSZ`, the
three offsets satisfy `sizeof(PageHeaderData) ≤ lower ≤ upper ≤ special ≤
BLCKSZ` (each individually within `[24, BLCKSZ]`), and `pd_flags` has no
bits outside `PD_VALID_FLAG_BITS`. -/
theorem c1_check_page_header_zero_iff (header : PageHeaderData) (block : Nat)
    (hv : PageGetPageLayoutVersion header = 4) (hu : header.pd_upper ≠ 0) :
    check_page_header header block = 0 ↔
      (PageGetPageSize header = BLCKSZ ∧
       SizeOfPageHeaderData ≤ header.pd_lower ∧ header.pd_lower ≤ header.pd_upper ∧
       header.pd_upper ≤ header.pd_special ∧ header.pd_special ≤ BLCKSZ ∧
       header.pd_lower ≤ BLCKSZ ∧
       SizeOfPageHeaderData ≤ header.pd_upper ∧ header.pd_upper ≤ BLCKSZ ∧
       SizeOfPageHeaderData ≤ header.pd_special ∧
       Nat.land header.pd_flags PD_VALID_FLAG_BITS = header.pd_flags) := by
  have hnew : ¬ PageIsNew header := hu
  unfold check_page_header check_page_header_tail
  rw [hv]
  simp only [hnew, if_false, if_true]
  norm_num
  split_ifs <;> simp_all <;> omega

/-- C1 witness: the iff instantiated at a concrete valid header. -/
theorem c1_witness :
    check_page_header ⟨0, 24, 8176, 8192, 8196, []⟩ 0 = 0 ↔
      (PageGetPageSize ⟨0, 24, 8176, 8192, 8196, []⟩ = BLCKSZ ∧
       SizeOfPageHeaderData ≤ 24 ∧ 24 ≤ 8176 ∧
       8176 ≤ 8192 ∧ 8192 ≤ BLCKSZ ∧
       24 ≤ BLCKSZ ∧
       SizeOfPageHeaderData ≤ 8176 ∧ 8176 ≤ BLCKSZ ∧
       SizeOfPageHeaderData ≤ 8192 ∧
       Nat.land 0 PD_VALID_FLAG_BITS = 0) :=
  c1_check_page_header_zero_iff ⟨0, 24, 8176, 8192, 8196, []⟩ 0 (by decide) (by decide)

/-! ## Claim C2 -/

/-- A line pointer with storage: `LP_NORMAL`, or `LP_DEAD` with a
non-zero length. -/
def storage_bearing (lp : ItemIdData) : Prop :=
  lp.lp_flags = LP_NORMAL ∨ (lp.lp_flags = LP_DEAD ∧ lp.lp_len ≠ 0)

instance (lp : ItemIdData) : Decidable (storage_bearing lp) := by
  unfold storage_bearing; infer_instance

/-- Disjointness of the storage intervals `[lp_off, lp_off + lp_len)`. -/
def intervalsDisjoint (lp1 lp2 : ItemIdData) : Prop :=
  lp1.lp_off + lp1.lp_len ≤ lp2.lp_off ∨ lp2.lp_off + lp2.lp_len ≤ lp1.lp_off

instance (lp1 lp2 : ItemIdData) : Decidable (intervalsDisjoint lp1 lp2) := by
  unfold intervalsDisjoint; infer_instance

/-- On a storage-bearing item, `check_heap_tuple` runs the bounds,
intersection and attribute checks. -/
theorem check_heap_tuple_storage_eq (rel : RelationData) (page : Page) (block i : Nat)
    (hi : storage_bearing (linpAt page.header i)) :
    check_heap_tuple rel page block i = check_heap_tuple_storage rel page block i := by
  unfold check_heap_tuple
  rcases hi with h1 | ⟨h3, hlen⟩
  · simp [h1, LP_NORMAL, LP_REDIRECT, LP_UNUSED, LP_DEAD]
  · simp [h3, hlen, LP_NORMAL, LP_REDIRECT, LP_UNUSED, LP_DEAD]

/-- A zero-error storage-bearing item has non-zero length and a
zero-contribution intersection loop. -/
theorem storage_zero_no_overlap (rel : RelationData) (page : Page) (block i : Nat)
    (hz : check_heap_tuple_storage rel page block i = 0) :
    (linpAt page.header i).lp_len ≠ 0 ∧
    ∀ j, j < i → heap_overlap_term page.header (linpAt page.header i).lp_off
        ((linpAt page.header i).lp_off + (linpAt page.header i).lp_len) j = 0 := by
  unfold check_heap_tuple_storage at hz
  simp only at hz
  have hfold : (List.foldl (fun n j => n + heap_overlap_term page.header
      (linpAt page.header i).lp_off
      ((linpAt page.header i).lp_off + (linpAt page.header i).lp_len) j)
      (0 : Nat) (List.range i)) = 0 := by
    rw [foldl_add_eq] at hz ⊢
    simp only [Nat.zero_add]
    split_ifs at hz <;> simp_all [Nat.add_eq_zero]
  constructor
  · intro hc
    rw [if_pos hc] at hz
    rw [foldl_add_eq] at hz
    split_ifs at hz <;> simp_all [Nat.add_eq_zero]
  · exact foldl_add_zero _ i hfold

/-- A zero contribution to the intersection loop by a storage-bearing
prior item means none of the four interleavings of `[a,b]` and `[c,d]`
holds. -/
theorem overlap_term_zero (header : PageHeaderData) (a b j : Nat)
    (hj : storage_bearing (linpAt header j))
    (h : heap_overlap_term header a b j = 0) :
    ¬((a < (linpAt header j).lp_off ∧ (linpAt header j).lp_off < b) ∨
      (a < (linpAt header j).lp_off + (linpAt header j).lp_len ∧
        (linpAt header j).lp_off + (linpAt header j).lp_len < b) ∨
      ((linpAt header j).lp_off < a ∧ a < (linpAt header j).lp_off + (linpAt header j).lp_len) ∨
      ((linpAt header j).lp_off < b ∧ b < (linpAt header j).lp_off + (linpAt header j).lp_len)) := by
  unfold heap_overlap_term at h
  simp only at h
  have hskip : ¬((linpAt header j).lp_flags = LP_UNUSED ∨
      (linpAt header j).lp_flags = LP_REDIRECT ∨
      ((linpAt header j).lp_flags = LP_DEAD ∧ (linpAt header j).lp_len = 0)) := by
    rcases hj with h1 | ⟨h3, hlen⟩
    · simp [h1, LP_NORMAL, LP_UNUSED, LP_REDIRECT, LP_DEAD]
    · simp [h3, hlen, LP_NORMAL, LP_UNUSED, LP_REDIRECT, LP_DEAD]
  rw [if_neg hskip] at h
  intro hcond
  rw [if_pos hcond] at h
  omega

/-- C2 (amended): on a heap page where `check_heap_tuples` reports zero
errors, the storage intervals of any two distinct storage-bearing line
pointers are disjoint or exactly coincide.  (The four interleaving tests
use strict inequalities, so two identical intervals raise no error; full
disjointness as claimed is refuted by `c2_counterexample`.) -/
theorem c2_storage_intervals_disjoint_or_equal (rel : RelationData) (page : Page)
    (block : Nat) (hz : check_heap_tuples rel page block = 0)
    (i j : Nat) (hij : i < j) (hj : j < PageGetMaxOffsetNumber page.header)
    (hi : storage_bearing (linpAt page.header i))
    (hjs : storage_bearing (linpAt page.header j)) :
    intervalsDisjoint (linpAt page.header i) (linpAt page.header j) ∨
      ((linpAt page.header i).lp_off = (linpAt page.header j).lp_off ∧
       (linpAt page.header i).lp_len = (linpAt page.header j).lp_len) := by
  unfold check_heap_tuples at hz
  simp only at hz
  have hall := foldl_add_zero (fun k => check_heap_tuple rel page block k)
    (PageGetMaxOffsetNumber page.header) hz
  have hzi : check_heap_tuple rel page block i = 0 := hall i (Nat.lt_trans hij hj)
  have hzj : check_heap_tuple rel page block j = 0 := hall j hj
  rw [check_heap_tuple_storage_eq rel page block i hi] at hzi
  rw [check_heap_tuple_storage_eq rel page block j hjs] at hzj
  obtain ⟨hleni, _⟩ := storage_zero_no_overlap rel page block i hzi
  obtain ⟨hlenj, hover⟩ := storage_zero_no_overlap rel page block j hzj
  have hterm := overlap_term_zero page.header _ _ i hi (hover i hij)
  unfold intervalsDisjoint
  omega

/-- A one-attribute fixed-width relation for the C2 page. -/
def relC2 : RelationData := ⟨1, [⟨4, true, 'i'⟩]⟩

/-- A heap page with two `LP_NORMAL` line pointers that carry the very
same storage interval `[8164, 8192)` over one valid one-attribute tuple
(`t_infomask2 = 1` at 8182, `t_hoff = 24` at 8186). -/
def pageC2 : Page :=
  ⟨⟨0, 32, 8164, 8192, 8196, [⟨8164, 1, 28⟩, ⟨8164, 1, 28⟩]⟩,
   fun i => if i = 8182 then 1 else if i = 8186 then 24 else 0,
   default, ⟨0, 0⟩⟩

/-- C2 counterexample: `check_heap_tuples` reports zero errors on
`pageC2` although its two storage-bearing line pointers hold identical,
overlapping intervals — the claimed disjointness fails. -/
theorem c2_counterexample :
    check_heap_tuples relC2 pageC2 0 = 0 ∧
    PageGetMaxOffsetNumber pageC2.header = 2 ∧
    storage_bearing (linpAt pageC2.header 0) ∧
    storage_bearing (linpAt pageC2.header 1) ∧
    ¬ intervalsDisjoint (linpAt pageC2.header 0) (linpAt pageC2.header 1) := by decide

/-- C2 witness: the amended theorem applied to `pageC2` at items 0 and
1 (the equal-intervals disjunct holds). -/
theorem c2_witness :
    intervalsDisjoint (linpAt pageC2.header 0) (linpAt pageC2.header 1) ∨
      ((linpAt pageC2.header 0).lp_off = (linpAt pageC2.header 1).lp_off ∧
       (linpAt pageC2.header 0).lp_len = (linpAt pageC2.header 1).lp_len) :=
  c2_storage_intervals_disjoint_or_equal relC2 pageC2 0 (by decide) 0 1
    (by decide) (by decide) (by decide) (by decide)

/-! ## Claim C3 -/

/-- C3 (amended): for a page header with layout version 4 and
`pd_upper = 0`, `check_page_header` stops at the new-page test and
returns the errors accumulated before it — 0 when the encoded page size
equals `BLCKSZ`, 1 otherwise — without inspecting `pd_lower`,
`pd_special` or `pd_flags`. -/
theorem c3_new_page_stops_with_pagesize_errors (header : PageHeaderData) (block : Nat)
    (hv : PageGetPageLayoutVersion header = 4) (hu : header.pd_upper = 0) :
    check_page_header header block =
      if PageGetPageSize header ≠ BLCKSZ then 1 else 0 := by
  have hnew : PageIsNew header := hu
  unfold check_page_header check_page_header_tail
  rw [hv]
  simp only [hnew, if_true]
  norm_num

/-- C3 counterexample: a version-4 header with `pd_upper = 0` whose
encoded page size is 0 (not `BLCKSZ`) makes `check_page_header` return 1,
not 0 as the claim states. -/
theorem c3_counterexample :
    PageGetPageLayoutVersion ⟨0, 0, 0, 0, 4, []⟩ = 4 ∧
    PageHeaderData.pd_upper ⟨0, 0, 0, 0, 4, []⟩ = 0 ∧
    check_page_header ⟨0, 0, 0, 0, 4, []⟩ 0 ≠ 0 := by decide

/-- C3 witness: the amended statement instantiated at the same header. -/
theorem c3_witness :
    check_page_header ⟨0, 0, 0, 0, 4, []⟩ 0 =
      if PageGetPageSize ⟨0, 0, 0, 0, 4, []⟩ ≠ BLCKSZ then 1 else 0 :=
  c3_new_page_stops_with_pagesize_errors ⟨0, 0, 0, 0, 4, []⟩ 0 (by decide) (by decide)

/-! ## Claim C4 -/

/-- A one-attribute varlena relation for the C4 evaluation. -/
def relC4 : RelationData := ⟨1, [⟨-1, false, 'i'⟩]⟩

/-- A heap page whose single `LP_NORMAL` tuple carries one compressed
varlena value of stored size 12 with `va_rawsize = 2097152` (2 MiB):
tuple at offset 8156, `t_hoff = 24`, one attribute, value bytes at 8180
(`va_header = (12 << 2) | 2 = 50`, `va_rawsize` little-endian at 8184). -/
def pageC4 : Page :=
  ⟨⟨0, 28, 8156, 8192, 8196, [⟨8156, 1, 36⟩]⟩,
   fun i =>
     if i = 8174 then 1 else if i = 8178 then 24 else
     if i = 8180 then 50 else if i = 8186 then 32 else 0,
   default, ⟨0, 0⟩⟩

/-- C4: the code flags the compressed raw length 2097152 (2 MiB) as an
error even though it lies within `[0, 1 GiB]`: the comparison at
src/src/heap.c:309 is against `1024*1024` while the claim (and the
code's own warning message) say 1 GiB. -/
theorem c4_compressed_raw_length_bug :
    check_heap_tuple_attributes relC4 pageC4 0 0 = 1 ∧
    VARATT_IS_COMPRESSED pageC4 8180 ∧
    VARRAWSIZE_4B_C pageC4 8180 = 2097152 ∧
    (0 : Int) ≤ 2097152 ∧ (2097152 : Int) ≤ 1024 * 1024 * 1024 := by decide

/-! ## Claim C5 -/

/-- One attribute step can only turn `has_nulls` on when the attribute is
marked NULL in `t_bits`. -/
theorem attr_step_has_nulls (rel : RelationData) (page : Page) (lp : ItemIdData)
    (infomask j : Nat) (s : AttrWalkState)
    (h : (check_attr_step rel page lp infomask j s).has_nulls = true) :
    s.has_nulls = true ∨ att_isnull j (t_bitsAt page lp.lp_off) := by
  by_cases hnull : att_isnull j (t_bitsAt page lp.lp_off)
  · exact Or.inr hnull
  · left
    have heq : (check_attr_step rel page lp infomask j s).has_nulls = s.has_nulls := by
      simp only [check_attr_step, check_attr_finish]
      split_ifs <;> try rfl
      exact absurd
        (‹Nat.land infomask HEAP_HASNULL ≠ 0 ∧ att_isnull j (t_bitsAt page lp.lp_off)›).2 hnull
    rw [heq] at h
    exact h

/-- If the attribute walk ends with `has_nulls` on, some walked attribute
was marked NULL in `t_bits`. -/
theorem attr_fold_has_nulls (rel : RelationData) (page : Page) (lp : ItemIdData)
    (infomask : Nat) :
    ∀ (l : List Nat) (s : AttrWalkState),
      (l.foldl (fun s j => check_attr_step rel page lp infomask j s) s).has_nulls = true →
      s.has_nulls = true ∨ ∃ j ∈ l, att_isnull j (t_bitsAt page lp.lp_off)
  | [], s => fun h => Or.inl h
  | x :: xs, s => fun h => by
      rcases attr_fold_has_nulls rel page lp infomask xs
        (check_attr_step rel page lp infomask x s) (by simpa using h) with h1 | h2
      · rcases attr_step_has_nulls rel page lp infomask x s h1 with h3 | h4
        · exact Or.inl h3
        · exact Or.inr ⟨x, by simp, h4⟩
      · rcases h2 with ⟨j, hj, hnull⟩
        exact Or.inr ⟨j, by simp [hj], hnull⟩

/-- C5: for a tuple whose `t_infomask` has `HEAP_HASNULL` set, a
zero-error run of `check_heap_tuple_attributes` implies some on-disk
attribute is marked NULL in the `t_bits` bitmap (otherwise the final
`HEAP_HASNULL`-but-no-NULLs check would have reported an error). -/
theorem c5_hasnull_implies_null_attr (rel : RelationData) (page : Page) (block i : Nat)
    (hn : Nat.land (t_infomaskAt page (linpAt page.header i).lp_off) HEAP_HASNULL ≠ 0)
    (hz : check_heap_tuple_attributes rel page block i = 0) :
    ∃ j, j < HeapTupleHeaderGetNatts (t_infomask2At page (linpAt page.header i).lp_off) ∧
      att_isnull j (t_bitsAt page (linpAt page.header i).lp_off) := by
  unfold check_heap_tuple_attributes at hz
  by_cases hnatts : HeapTupleHeaderGetNatts (t_infomask2At page (linpAt page.header i).lp_off) > rel.natts
  · rw [if_pos hnatts] at hz
    omega
  · rw [if_neg hnatts] at hz
    simp only at hz
    generalize hs : (List.range (HeapTupleHeaderGetNatts (t_infomask2At page (linpAt page.header i).lp_off))).foldl
      (fun s j => check_attr_step rel page (linpAt page.header i)
        (t_infomaskAt page (linpAt page.header i).lp_off) j s)
      ⟨((linpAt page.header i).lp_off : Int) + (t_hoffAt page (linpAt page.header i).lp_off : Int),
        0, 0, false, false⟩ = s at hz
    have hhn : s.has_nulls = true := by
      by_contra hc
      have hc' : s.has_nulls = false := by
        cases hfn : s.has_nulls
        · rfl
        · exact absurd hfn hc
      split_ifs at hz
      all_goals first
        | omega
        | exact absurd (And.intro hn hc') (by assumption)
    have hfold : ((List.range (HeapTupleHeaderGetNatts (t_infomask2At page (linpAt page.header i).lp_off))).foldl
      (fun s j => check_attr_step rel page (linpAt page.header i)
        (t_infomaskAt page (linpAt page.header i).lp_off) j s)
      ⟨((linpAt page.header i).lp_off : Int) + (t_hoffAt page (linpAt page.header i).lp_off : Int),
        0, 0, false, false⟩).has_nulls = true := by rw [hs]; exact hhn
    rcases attr_fold_has_nulls rel page (linpAt page.header i)
      (t_infomaskAt page (linpAt page.header i).lp_off) _ _ hfold with h1 | h2
    · simp at h1
    · rcases h2 with ⟨j, hj, hnull⟩
      exact ⟨j, List.mem_range.1 hj, hnull⟩

/-- A one-attribute fixed-width relation for the C5 witness. -/
def relC5 : RelationData := ⟨1, [⟨4, true, 'i'⟩]⟩

/-- A heap page whose single tuple has `HEAP_HASNULL` set and its only
attribute marked NULL in `t_bits` (tuple at 8168, `t_hoff = 24`,
`t_infomask = 1`, `t_infomask2 = 1`, `t_bits` byte 0). -/
def pageC5 : Page :=
  ⟨⟨0, 28, 8168, 8192, 8196, [⟨8168, 1, 24⟩]⟩,
   fun i => if i = 8186 then 1 else if i = 8188 then 1 else if i = 8190 then 24 else 0,
   default, ⟨0, 0⟩⟩

/-- C5 witness: the theorem applied to a concrete page whose tuple walk
reports zero errors. -/
theorem c5_witness :
    ∃ j, j < HeapTupleHeaderGetNatts (t_infomask2At pageC5 (linpAt pageC5.header 0).lp_off) ∧
      att_isnull j (t_bitsAt pageC5 (linpAt pageC5.header 0).lp_off) :=
  c5_hasnull_implies_null_attr relC5 pageC5 0 0 (by decide) (by decide)

/-! ## Claim C6 -/

/-- C6: on every non-metapage b-tree page that is not marked `DELETED`,
`btree_check_page` decomposes into the header check, the special-space
check, the leaf/level coupling errors, the tuple checks and the bitmap
pass — and the leaf/level coupling contributes exactly one error when
(`LEAF` set and `level ≠ 0`) or (`LEAF` clear and `level = 0`), and no
error otherwise. -/
theorem c6_btree_leaf_level_coupling (rel : RelationData) (page : Page) (block : Nat)
    (bm : Option ItemBitmap)
    (hb : block ≠ BTREE_METAPAGE) (hd : ¬ P_ISDELETED page.specialArea) :
    btree_check_page rel page block bm =
      check_page_header page.header block
        + (if page.header.pd_special > BLCKSZ - sizeofBTPageOpaqueData then 1 else 0)
        + btree_leaf_level_errs page.specialArea
        + btree_check_tuples rel page block
        + (match bm with
           | some b => if P_ISLEAF page.specialArea
                       then (btree_add_tuples rel page block b).2 else 0
           | none => 0)
    ∧ btree_leaf_level_errs page.specialArea =
        (if (P_ISLEAF page.specialArea ∧ page.specialArea.btpo_level ≠ 0) ∨
            (¬ P_ISLEAF page.specialArea ∧ page.specialArea.btpo_level = 0)
         then 1 else 0) := by
  constructor
  · unfold btree_check_page
    rw [if_neg hb]
    simp only
    cases bm with
    | none => split_ifs <;> ring
    | some b => split_ifs <;> ring
  · unfold btree_leaf_level_errs
    rw [if_pos hd]
    split_ifs <;> simp_all

/-- An empty relation descriptor for the C6 witness. -/
def relC6 : RelationData := ⟨0, []⟩

/-- An empty leaf page (flags `BTP_LEAF`, level 0, not deleted). -/
def pageC6 : Page :=
  ⟨⟨0, 24, 8176, 8176, 8196, []⟩, fun _ => 0, ⟨0, 0, 0, 1⟩, ⟨0, 0⟩⟩

/-- C6 witness: the coupling decomposition at a concrete leaf page. -/
theorem c6_witness :
    btree_check_page relC6 pageC6 1 none =
      check_page_header pageC6.header 1
        + (if pageC6.header.pd_special > BLCKSZ - sizeofBTPageOpaqueData then 1 else 0)
        + btree_leaf_level_errs pageC6.specialArea
        + btree_check_tuples relC6 pageC6 1
        + (match (none : Option ItemBitmap) with
           | some b => if P_ISLEAF pageC6.specialArea
                       then (btree_add_tuples relC6 pageC6 1 b).2 else 0
           | none => 0)
    ∧ btree_leaf_level_errs pageC6.specialArea =
        (if (P_ISLEAF pageC6.specialArea ∧ pageC6.specialArea.btpo_level ≠ 0) ∨
            (¬ P_ISLEAF pageC6.specialArea ∧ pageC6.specialArea.btpo_level = 0)
         then 1 else 0) :=
  c6_btree_leaf_level_coupling relC6 pageC6 1 none (by decide) (by decide)

/-! ## Claim C8 -/

/-- C8: `lookup_check_method` does terminate (in one step) with the
b-tree checker for `BTREE_AM_OID` (403), but for any other OID — 405
(hash) shown here — the `while` loop never advances `i`, so no amount of
fuel makes it return: the claim's "terminates for every access-method
OID, with the generic checker for the rest" fails. -/
theorem c8_lookup_check_method_nontermination :
    (∀ fuel, lookup_check_method 405 fuel = none) ∧
    lookup_check_method 403 1 = some (btree_check_page, true) := by
  constructor
  · intro fuel
    induction fuel with
    | zero => rfl
    | succ n ih =>
        simpa [lookup_check_method, lookup_check_method_loop, methodsAt, methods]
          using ih
  · rfl

/-! ## Claim C9 -/

/-- C9: after `bitmap_add_page` registers 2 items on page 0 and
`bitmap_set_item` sets only item `(0,0)`, `bitmap_get_item (0,0)` is true
(as claimed) but `bitmap_get_item (0,1)` is also true although that bit
was never set — the return expression `data[byteIdx] && (1 << bitIdx)`
uses a logical AND, reporting any non-zero byte.  Before the set, the
same query was false. -/
theorem c9_bitmap_get_item_byte_bug :
    bitmap_get_item ((bitmap_set_item (bitmap_add_page (bitmap_init 1) 0 2) 0 0 true).2) 0 0 = true ∧
    bitmap_get_item ((bitmap_set_item (bitmap_add_page (bitmap_init 1) 0 2) 0 0 true).2) 0 1 = true ∧
    bitmap_get_item (bitmap_add_page (bitmap_init 1) 0 2) 0 1 = false := by decide

/-! ## Claim C10 -/

/-- C10: with `check_indexes = false` and `cross_check = false` the heap
bitmap is never allocated, yet `check_table` executes
`bitmap_print(bitmap_heap, ...)` whenever `pg_check.debug` is on
(src/src/pg_check.c:246-248), dereferencing a NULL pointer (`none`);
with the knob off the same call returns a count. -/
theorem c10_check_table_debug_crash (rel : RelationData) (relpages : List Page)
    (indexes : List IndexRel) :
    check_table rel relpages indexes false false true = none ∧
    (check_table rel relpages indexes false false false).isSome := by
  unfold check_table
  simp only [Bool.false_eq_true, if_false, if_true]
  have h2 : (relpages.enum.foldl
      (fun (st : Nat × Option ItemBitmap) (pr : Nat × Page) =>
        (st.1 + check_page_header pr.2.header pr.1 + check_heap_tuples rel pr.2 pr.1, st.2))
      ((0 : Nat), (none : Option ItemBitmap))).2 = none :=
    foldl_preserve_snd
      (fun (st : Nat × Option ItemBitmap) (pr : Nat × Page) =>
        st.1 + check_page_header pr.2.header pr.1 + check_heap_tuples rel pr.2 pr.1)
      relpages.enum (0, none)
  constructor
  · rw [h2]; rfl
  · simp

/-! ## Claim C7 -/

/-- Bit `k` of the bitmap data (byte `k / 8`, position `k % 8`). -/
def bmBit (bm : ItemBitmap) (k : Nat) : Prop :=
  (bm.data.getD (k / 8) 0).testBit (k % 8) = true

/-- All set bits lie below the bound `B`. -/
def bmInv (bm : ItemBitmap) (B : Nat) : Prop := ∀ k, bmBit bm k → k < B

/-- The C test `byte & (1 << j)` is the `j`-th bit of the byte. -/
theorem land_two_pow_ne (b j : Nat) :
    (Nat.land b (Nat.shiftLeft 1 j) ≠ 0) ↔ b.testBit j = true := by
  show (b &&& (1 <<< j) ≠ 0) ↔ _
  rw [Nat.shiftLeft_eq, one_mul, Nat.and_two_pow]
  cases h : b.testBit j <;> simp [h, Nat.pos_iff_ne_zero.1 (Nat.two_pow_pos j)]

/-- A conditional-increment fold is the seed plus the indicator sum. -/
theorem foldl_ite_eq_add (c : Nat → Prop) [DecidablePred c] (l : List Nat) (a : Nat) :
    l.foldl (fun a k => if c k then a + 1 else a) a
      = a + (l.map (fun k => if c k then 1 else 0)).sum := by
  have hf : (fun (a k : Nat) => if c k then a + 1 else a)
      = fun a k => a + (if c k then 1 else 0) := by
    funext a k
    split_ifs <;> omega
  rw [hf, foldl_add_eq]

/-- `bitmap_count` counts exactly the set bits with index below
`8 * nbytes`. -/
theorem bitmap_count_eq (bm : ItemBitmap) :
    bitmap_count bm = ((List.range (8 * bm.nbytes)).map
      (fun k => if (bm.data.getD (k / 8) 0).testBit (k % 8) = true then 1 else 0)).sum := by
  unfold bitmap_count
  have key : ∀ n, (List.range n).foldl (fun items i => (List.range 8).foldl
      (fun items j => if Nat.land (bm.data.getD i 0) (Nat.shiftLeft 1 j) ≠ 0
                      then items + 1 else items) items) 0
      = ((List.range (8 * n)).map
          (fun k => if (bm.data.getD (k / 8) 0).testBit (k % 8) = true then 1 else 0)).sum := by
    intro n
    induction n with
    | zero => simp
    | succ m ih =>
        rw [List.range_succ m, List.foldl_append]
        have h8 : 8 * (m + 1) = 8 * m + 8 := by ring
        rw [h8, List.range_add, List.map_append, List.sum_append]
        simp only [List.foldl_cons, List.foldl_nil]
        rw [foldl_ite_eq_add (fun j => Nat.land (bm.data.getD m 0) (Nat.shiftLeft 1 j) ≠ 0)]
        rw [ih]
        congr 1
        rw [List.map_map]
        apply congrArg List.sum
        apply List.map_congr_left
        intro j hj
        have hj8 : j < 8 := List.mem_range.1 hj
        have hdiv : (8 * m + j) / 8 = m := by
          rw [Nat.mul_add_div (by norm_num)]
          simp [Nat.div_eq_of_lt hj8]
        have hmod : (8 * m + j) % 8 = j := by
          rw [Nat.mul_add_mod]
          exact Nat.mod_eq_of_lt hj8
        simp only [Function.comp, hdiv, hmod]
        split_ifs with h1 h2 h3 <;> first
          | rfl
          | (exact absurd ((land_two_pow_ne _ _).1 h1) h2)
          | (exact absurd ((land_two_pow_ne _ _).2 h3) h1)
  exact key bm.nbytes

/-- Sum of the indicator of `k < B` over `0 .. M-1`. -/
theorem sum_ind_lt (B : Nat) : ∀ M,
    ((List.range M).map (fun k => if k < B then 1 else 0)).sum = min M B := by
  intro M
  induction M with
  | zero => simp
  | succ m ih =>
      rw [List.range_succ, List.map_append, List.sum_append]
      simp [ih]
      split_ifs <;> omega

/-- A bitmap whose set bits all lie below `B` has popcount at most `B`. -/
theorem count_le_of_inv (bm : ItemBitmap) (B : Nat) (h : bmInv bm B) :
    bitmap_count bm ≤ B := by
  rw [bitmap_count_eq]
  have h1 : ((List.range (8 * bm.nbytes)).map
      (fun k => if (bm.data.getD (k / 8) 0).testBit (k % 8) = true then 1 else 0)).sum
      ≤ ((List.range (8 * bm.nbytes)).map (fun k => if k < B then 1 else 0)).sum := by
    apply List.sum_le_sum
    intro i hi
    split_ifs with h2 h3
    · rfl
    · exact absurd (h i h2) h3
    · omega
    · rfl
  calc _ ≤ _ := h1
    _ = min (8 * bm.nbytes) B := sum_ind_lt B _
    _ ≤ B := Nat.min_le_right _ _

/-- `getD` after an in-range `set` at the same index. -/
theorem getD_set_self' (l : List Nat) (p v : Nat) (hp : p < l.length) :
    (l.set p v).getD p 0 = v := by
  rw [List.getD_eq_getElem?_getD, List.getElem?_set_self hp]
  rfl

/-- `getD` after a `set` at a different index. -/
theorem getD_set_ne' (l : List Nat) (p q v : Nat) (h : p ≠ q) :
    (l.set p v).getD q 0 = l.getD q 0 := by
  rw [List.getD_eq_getElem?_getD, List.getElem?_set_ne h, ← List.getD_eq_getElem?_getD]

/-- `getD` on a zero-filled list. -/
theorem getD_replicate_zero (m i : Nat) : (List.replicate m (0 : Nat)).getD i 0 = 0 := by
  rw [List.getD_eq_getElem?_getD, List.getElem?_replicate]
  split_ifs <;> rfl

/-- Appending a zero-filled chunk does not change any `getD` value. -/
theorem getD_append_replicate (l : List Nat) (m i : Nat) :
    (l ++ List.replicate m (0 : Nat)).getD i 0 = l.getD i 0 := by
  rcases Nat.lt_or_ge i l.length with h | h
  · exact List.getD_append _ _ _ _ h
  · rw [List.getD_eq_default _ _ h, List.getD_eq_getElem?_getD,
      List.getElem?_append_right h, List.getElem?_replicate]
    split_ifs <;> rfl

/-- `bitmap_add_page` never changes an existing data byte. -/
theorem bitmap_add_page_dataD (bm : ItemBitmap) (p items i : Nat) :
    (bitmap_add_page bm p items).data.getD i 0 = bm.data.getD i 0 := by
  simp only [bitmap_add_page]
  split_ifs <;> simp only [getD_append_replicate]

/-- `bitmap_add_page` changes no bit. -/
theorem bmBit_add_page (bm : ItemBitmap) (p items k : Nat) :
    bmBit (bitmap_add_page bm p items) k ↔ bmBit bm k := by
  unfold bmBit
  rw [bitmap_add_page_dataD]

/-- `bitmap_add_page` keeps `npages`. -/
theorem bitmap_add_page_npages (bm : ItemBitmap) (p items : Nat) :
    (bitmap_add_page bm p items).npages = bm.npages := by
  simp only [bitmap_add_page]
  split_ifs <;> rfl

/-- `bitmap_add_page` records the running sum at index `page`. -/
theorem bitmap_add_page_pages (bm : ItemBitmap) (p items : Nat) :
    (bitmap_add_page bm p items).pages =
      bm.pages.set p (if p = 0 then items else items + bm.pages.getD (p - 1) 0) := by
  simp only [bitmap_add_page]
  split_ifs <;> simp_all

/-- `bitmap_set_item` keeps the page counts and dimensions. -/
theorem bitmap_set_item_pages (bm : ItemBitmap) (p : Nat) (item : Int) (st : Bool) :
    ((bitmap_set_item bm p item st).2).pages = bm.pages ∧
    ((bitmap_set_item bm p item st).2).npages = bm.npages := by
  simp only [bitmap_set_item]
  split_ifs <;> simp

/-- Clearing (`state = false`) never turns a bit on. -/
theorem bmBit_set_false (bm : ItemBitmap) (p : Nat) (item : Int) (k : Nat)
    (h : bmBit (bitmap_set_item bm p item false).2 k) : bmBit bm k := by
  simp only [bitmap_set_item, Bool.false_eq_true, if_false] at h
  split_ifs at h <;> try exact h
  simp only at h
  unfold bmBit at h ⊢
  by_cases hk : ((Int.tdiv (GetBitmapIndex bm p item) 8).toNat) = k / 8
  · rcases Nat.lt_or_ge ((Int.tdiv (GetBitmapIndex bm p item) 8).toNat) bm.data.length with hl | hl
    · rw [← hk] at h ⊢
      rw [getD_set_self' _ _ _ hl] at h
      have hland : Nat.land (bm.data.getD ((Int.tdiv (GetBitmapIndex bm p item) 8).toNat) 0)
          (Nat.xor 255 (bitMaskOf (Int.tmod (GetBitmapIndex bm p item) 8)))
          = bm.data.getD ((Int.tdiv (GetBitmapIndex bm p item) 8).toNat) 0 &&&
            (Nat.xor 255 (bitMaskOf (Int.tmod (GetBitmapIndex bm p item) 8))) := rfl
      rw [hland, Nat.testBit_and, Bool.and_eq_true] at h
      exact h.1
    · rw [List.set_eq_of_length_le hl] at h
      exact h
  · rw [getD_set_ne' _ _ _ _ hk] at h
    exact h



/-- `GetBitmapIndex` of a non-negative item is non-negative. -/
theorem GetBitmapIndex_nonneg (bm : ItemBitmap) (p : Nat) (item : Int)
    (hitem : 0 ≤ item) : 0 ≤ GetBitmapIndex bm p item := by
  unfold GetBitmapIndex
  split_ifs <;> positivity

/-- Setting (`state = true`) a non-negative item adds at most the bit at
`GetBitmapIndex`, and only when the item passed the range guard. -/
theorem bmBit_set_true (bm : ItemBitmap) (p : Nat) (item : Int) (hitem : 0 ≤ item)
    (k : Nat) (h : bmBit (bitmap_set_item bm p item true).2 k) :
    bmBit bm k ∨
      ((k : Int) = GetBitmapIndex bm p item ∧ item < (bm.pages.getD p 0 : Int)) := by
  have hidx := GetBitmapIndex_nonneg bm p item hitem
  have hNid : (((GetBitmapIndex bm p item).toNat : Int)) = GetBitmapIndex bm p item :=
    Int.toNat_of_nonneg hidx
  simp only [bitmap_set_item] at h
  split_ifs at h <;> try exact Or.inl h
  rename_i hga hgb hgc
  simp only at h
  have hdiv : Int.tdiv (GetBitmapIndex bm p item) 8
      = (((GetBitmapIndex bm p item).toNat / 8 : Nat) : Int) := by
    rw [← hNid]
    rfl
  have hmod : Int.tmod (GetBitmapIndex bm p item) 8
      = (((GetBitmapIndex bm p item).toNat % 8 : Nat) : Int) := by
    rw [← hNid]
    rfl
  have hmask : bitMaskOf (Int.tmod (GetBitmapIndex bm p item) 8)
      = Nat.shiftLeft 1 ((GetBitmapIndex bm p item).toNat % 8) := by
    unfold bitMaskOf
    rw [hmod]
    rw [if_neg (not_lt.2 (by positivity))]
    congr 1
  rw [hdiv, hmask] at h
  unfold bmBit at h ⊢
  rw [Int.toNat_natCast] at h
  by_cases hk : (GetBitmapIndex bm p item).toNat / 8 = k / 8
  · rcases Nat.lt_or_ge ((GetBitmapIndex bm p item).toNat / 8) bm.data.length with hl | hl
    · rw [hk] at h hl
      rw [getD_set_self' _ _ _ hl] at h
      have hlor : Nat.lor (bm.data.getD (k / 8) 0)
            (Nat.shiftLeft 1 ((GetBitmapIndex bm p item).toNat % 8))
          = bm.data.getD (k / 8) 0 ||| (Nat.shiftLeft 1 ((GetBitmapIndex bm p item).toNat % 8)) := rfl
      rw [hlor, Nat.testBit_or, Bool.or_eq_true] at h
      rcases h with h | h
      · exact Or.inl h
      · right
        rw [show Nat.shiftLeft 1 ((GetBitmapIndex bm p item).toNat % 8)
              = 2 ^ ((GetBitmapIndex bm p item).toNat % 8) from by
            rw [show Nat.shiftLeft 1 ((GetBitmapIndex bm p item).toNat % 8)
                  = 1 <<< ((GetBitmapIndex bm p item).toNat % 8) from rfl,
              Nat.shiftLeft_eq, one_mul],
          Nat.testBit_two_pow] at h
        have hmodeq : (GetBitmapIndex bm p item).toNat % 8 = k % 8 := by
          simpa using h
        have hkN : k = (GetBitmapIndex bm p item).toNat := by
          have e1 := Nat.div_add_mod k 8
          have e2 := Nat.div_add_mod ((GetBitmapIndex bm p item).toNat) 8
          omega
        constructor
        · rw [hkN]
          exact hNid
        · exact lt_of_not_ge hgc
    · rw [List.set_eq_of_length_le hl] at h
      exact Or.inl h
  · rw [getD_set_ne' _ _ _ _ hk] at h
    exact Or.inl h



/-- An invariant preserved by every step holds after a fold. -/
theorem foldl_inv {α β : Type _} (P : β → Prop) (f : β → α → β) :
    ∀ (l : List α) (b : β), P b → (∀ b a, P b → P (f b a)) → P (l.foldl f b)
  | [], _, hb, _ => hb
  | x :: xs, b, hb, hstep => foldl_inv P f xs (f b x) (hstep b x hb) hstep

/-- Fold invariant, with membership of the step element available. -/
theorem foldl_inv_mem {α β : Type _} (P : β → Prop) (f : β → α → β) :
    ∀ (l : List α) (b : β), P b → (∀ b a, a ∈ l → P b → P (f b a)) → P (l.foldl f b)
  | [], _, hb, _ => hb
  | x :: xs, b, hb, hstep =>
      foldl_inv_mem P f xs (f b x) (hstep b x (List.mem_cons_self x xs) hb)
        (fun b a ha hb' => hstep b a (List.mem_cons_of_mem x ha) hb')

/-- Running item total before page `idx` (the `pages` entry of the
previous page, 0 for the first). -/
def prevBound (bm : ItemBitmap) (idx : Nat) : Nat :=
  if idx = 0 then 0 else bm.pages.getD (idx - 1) 0

/-- `bitmap_add_heap_items` on page `p` keeps every set bit below the new
running total `pages[p]` when all prior bits were below `pages[p-1]`. -/
theorem add_heap_items_inv (bm : ItemBitmap) (pg : Page) (p : Nat)
    (hlen : bm.pages.length = bm.npages) (hp : p < bm.npages)
    (hInv : bmInv bm (prevBound bm p)) :
    ((bitmap_add_heap_items bm pg p).1).npages = bm.npages ∧
    ((bitmap_add_heap_items bm pg p).1).pages.length = bm.npages ∧
    ((bitmap_add_heap_items bm pg p).1).pages.getD p 0
        = prevBound bm p + PageGetMaxOffsetNumber pg.header ∧
    bmInv ((bitmap_add_heap_items bm pg p).1)
      (prevBound bm p + PageGetMaxOffsetNumber pg.header) := by
  have hplen : p < bm.pages.length := by omega
  set nt := PageGetMaxOffsetNumber pg.header with hnt
  set v := prevBound bm p + nt with hv
  set bm1 := bitmap_add_page bm p nt with hbm1
  have f1 : bm1.npages = bm.npages := bitmap_add_page_npages bm p nt
  have f2 : bm1.pages = bm.pages.set p (if p = 0 then nt else nt + bm.pages.getD (p - 1) 0) :=
    bitmap_add_page_pages bm p nt
  have hvv : (if p = 0 then nt else nt + bm.pages.getD (p - 1) 0) = v := by
    rw [hv]
    unfold prevBound
    split_ifs <;> omega
  have f3 : bm1.pages.getD p 0 = v := by
    rw [f2, hvv, getD_set_self' _ _ _ hplen]
  have f3' : ∀ q, q ≠ p → bm1.pages.getD q 0 = bm.pages.getD q 0 := by
    intro q hq
    rw [f2, hvv, getD_set_ne' _ _ _ _ (fun he => hq he.symm)]
  have f4 : bm1.pages.length = bm.npages := by
    rw [f2, List.length_set, hlen]
  have f5 : bmInv bm1 v := by
    intro k hk
    have := hInv k ((bmBit_add_page bm p nt k).1 hk)
    omega
  have hQmain :
      (fun (st : ItemBitmap × Nat) =>
        st.1.pages = bm1.pages ∧ st.1.npages = bm.npages ∧ bmInv st.1 v)
        (bitmap_add_heap_items bm pg p) := by
    unfold bitmap_add_heap_items
    simp only
    apply foldl_inv (fun (st : ItemBitmap × Nat) =>
      st.1.pages = bm1.pages ∧ st.1.npages = bm.npages ∧ bmInv st.1 v)
    · apply foldl_inv_mem (fun (st : ItemBitmap × Nat) =>
        st.1.pages = bm1.pages ∧ st.1.npages = bm.npages ∧ bmInv st.1 v)
      · exact ⟨rfl, f1, f5⟩
      · intro st item hmem hQ
        by_cases hflags : (linpAt pg.header item).lp_flags = LP_NORMAL ∨
            (linpAt pg.header item).lp_flags = LP_REDIRECT
        · rw [if_pos hflags]
          refine ⟨?_, ?_, ?_⟩
          · rw [(bitmap_set_item_pages st.1 p (item : Int) true).1]
            exact hQ.1
          · rw [(bitmap_set_item_pages st.1 p (item : Int) true).2]
            exact hQ.2.1
          · intro k hk
            rcases bmBit_set_true st.1 p (item : Int) (by positivity) k hk with hold | ⟨hkeq, hlt⟩
            · exact hQ.2.2 k hold
            · have hitemnt : item < nt := List.mem_range.1 hmem
              have hpg := hQ.1
              rw [hpg, f3] at hlt
              unfold GetBitmapIndex at hkeq
              by_cases hp0 : p = 0
              · rw [if_pos hp0] at hkeq
                omega
              · rw [if_neg hp0] at hkeq
                have hne : p - 1 ≠ p := by omega
                have hbase : st.1.pages.getD (p - 1) 0 = prevBound bm p := by
                  rw [hpg, f3' _ hne]
                  unfold prevBound
                  rw [if_neg hp0]
                rw [hbase] at hkeq
                omega
        · rw [if_neg hflags]
          exact hQ
    · intro st item hQ
      by_cases hflags : (linpAt pg.header item).lp_flags = LP_REDIRECT
      · rw [if_pos hflags]
        by_cases hget : bitmap_get_item st.1 p ((linpAt pg.header item).lp_off - 1 : Int) = true
        · rw [if_pos hget]
          refine ⟨?_, ?_, ?_⟩
          · rw [(bitmap_set_item_pages st.1 p ((linpAt pg.header item).lp_off - 1 : Int) false).1]
            exact hQ.1
          · rw [(bitmap_set_item_pages st.1 p ((linpAt pg.header item).lp_off - 1 : Int) false).2]
            exact hQ.2.1
          · intro k hk
            exact hQ.2.2 k (bmBit_set_false st.1 p _ k hk)
        · rw [if_neg hget]
          exact hQ
      · rw [if_neg hflags]
        exact hQ
  refine ⟨hQmain.2.1, ?_, ?_, hQmain.2.2⟩
  · rw [hQmain.1]
    exact f4
  · rw [hQmain.1]
    exact f3



/-- The heap pass maintains the bound invariant across pages processed in
ascending order. -/
theorem heap_pass_from_inv : ∀ (rest : List Page) (bm : ItemBitmap) (idx : Nat),
    bm.pages.length = bm.npages → idx + rest.length = bm.npages →
    bmInv bm (prevBound bm idx) →
    (heap_pass_from bm idx rest).npages = bm.npages ∧
    (heap_pass_from bm idx rest).pages.length = bm.npages ∧
    bmInv (heap_pass_from bm idx rest)
      (prevBound (heap_pass_from bm idx rest) (idx + rest.length))
  | [], bm, idx, h1, _, h3 => by
      refine ⟨rfl, h1, ?_⟩
      simpa using h3
  | pg :: rest, bm, idx, h1, h2, h3 => by
      have hp : idx < bm.npages := by
        simp only [List.length_cons] at h2
        omega
      obtain ⟨ha, hb, hc, hd⟩ := add_heap_items_inv bm pg idx h1 hp h3
      have hrec := heap_pass_from_inv rest (bitmap_add_heap_items bm pg idx).1 (idx + 1)
        (by rw [hb, ha]) (by simp only [List.length_cons] at h2; omega)
        (by
          have hprev : prevBound (bitmap_add_heap_items bm pg idx).1 (idx + 1)
              = ((bitmap_add_heap_items bm pg idx).1).pages.getD idx 0 := by
            unfold prevBound
            rw [if_neg (by omega)]
            simp
          rw [hprev, hc]
          exact hd)
      have hstep : heap_pass_from bm idx (pg :: rest)
          = heap_pass_from (bitmap_add_heap_items bm pg idx).1 (idx + 1) rest := rfl
      rw [hstep]
      refine ⟨hrec.1.trans ha, hrec.2.1.trans ?_, ?_⟩
      · rw [ha]
      · have hlen : idx + (pg :: rest).length = (idx + 1) + rest.length := by
          simp [List.length_cons]
          omega
        rw [hlen]
        exact hrec.2.2

/-- C7 (amended): after the heap pass over pages `0 .. npages-1`, the
number of set bits (`bitmap_count`) is at most the running total tally
stored in the last `pages` entry.  Equality as claimed fails
(`c7_counterexample`). -/
theorem c7_popcount_le_total_tally (relpages : List Page) :
    bitmap_count (run_heap_pass relpages) ≤
      (run_heap_pass relpages).pages.getD ((run_heap_pass relpages).npages - 1) 0 := by
  unfold run_heap_pass
  have h0 : (bitmap_init relpages.length).pages.length = (bitmap_init relpages.length).npages := by
    unfold bitmap_init
    simp
  have h2 : 0 + relpages.length = (bitmap_init relpages.length).npages := by
    unfold bitmap_init
    simp
  have h3 : bmInv (bitmap_init relpages.length) (prevBound (bitmap_init relpages.length) 0) := by
    intro k hk
    exfalso
    unfold bmBit bitmap_init at hk
    simp only at hk
    rw [getD_replicate_zero] at hk
    rw [Nat.zero_testBit] at hk
    exact Bool.false_ne_true hk
  obtain ⟨ha, hb, hc⟩ := heap_pass_from_inv relpages (bitmap_init relpages.length) 0 h0 h2 h3
  have hnp : (bitmap_init relpages.length).npages = relpages.length := rfl
  apply count_le_of_inv
  have hfin : prevBound (heap_pass_from (bitmap_init relpages.length) 0 relpages)
      (0 + relpages.length)
      = (heap_pass_from (bitmap_init relpages.length) 0 relpages).pages.getD
          ((heap_pass_from (bitmap_init relpages.length) 0 relpages).npages - 1) 0 := by
    rw [ha, hnp]
    unfold prevBound
    by_cases hlen0 : relpages.length = 0
    · rw [if_pos (by omega)]
      have hlz : (heap_pass_from (bitmap_init relpages.length) 0 relpages).pages.length = 0 := by
        rw [hb, hnp]
        exact hlen0
      rw [List.getD_eq_default _ _ (by omega)]
    · rw [if_neg (by omega)]
      simp
  rw [← hfin]
  exact hc

/-- A heap page whose only line pointer is `LP_UNUSED`. -/
def pageC7 : Page :=
  ⟨⟨0, 28, 8176, 8192, 8196, [⟨0, 0, 0⟩]⟩, fun _ => 0, default, ⟨0, 0⟩⟩

/-- C7 counterexample: one page with a single `LP_UNUSED` item is tallied
(`pages = [1]`, total 1) but sets no bit, so `bitmap_count` is 0 — the
claimed equality between popcount and the stored tallies fails. -/
theorem c7_counterexample :
    bitmap_count (run_heap_pass [pageC7]) = 0 ∧
    (run_heap_pass [pageC7]).pages = [1] ∧
    (run_heap_pass [pageC7]).pages.sum = 1 := by decide


end PgCheck
